import Mathlib

/-!
# Event stream multiplexer (`beacon-chain/rpc/eventsv1/events.go`)

A shallow embedding of `StreamEvents` and of the three event classifiers it
dispatches to, followed by theorems about request validation, classification,
error propagation, cancellation, subscription lifetime and output order.

Modelling conventions.

* Everything the file imports from other packages (the feed event kinds, the
  payload and wire message types, the `migration` translators, `anypb.New`,
  `HashTreeRoot`, `stream.Send`) is a field of `Collab`: the development is
  parametric in it.
* The outbound stream is passed explicitly: `Send` takes a stream state and
  returns the next one with an optional error.  Besides, every function returns
  the list of the effects it performed (`Effect`), in program order.
* A Go function that returns `error` returns a `Ret`: `nil`, an error value, or a
  run-time panic (a nil-pointer dereference).
* The `select` statement of the loop is resolved by an input list of `Ready`
  items: the case that fires at each iteration.  When the list is exhausted the
  call is blocked in `select` (`CallResult.running`).
-/

namespace Eventsv1

/-! ## Status codes and errors -/

/-- The `codes.Code` values used by this file. -/
inductive Code where
  | InvalidArgument
  | Internal
  | Canceled
  deriving DecidableEq, Repr

/-- A Go `error` value: either one returned by a collaborator, or a gRPC status
built by `status.Error` / `status.Errorf`, kept with its format string and
argument. -/
inductive GoError (E : Type) where
  /-- an error returned by a collaborator -/
  | ext (e : E)
  /-- Built by `status.Error(code, msg)`, or `status.Errorf(code, msg)` without arguments -/
  | status (code : Code) (msg : String)
  /-- Built by `status.Errorf(code, format, arg)` with a string argument -/
  | statusS (code : Code) (format : String) (arg : String)
  /-- Built by `status.Errorf(code, format, err)` with an error argument -/
  | statusE (code : Code) (format : String) (err : GoError E)

/-- The gRPC status code of an error, when it is a status. -/
def GoError.code {E : Type} : GoError E → Option Code
  | .ext _ => none
  | .status c _ => some c
  | .statusS c _ _ => some c
  | .statusE c _ _ => some c

/-- What a Go function of result type `error` does: return `nil`, return an
error, or panic. -/
inductive Ret (E : Type) where
  | nil
  | err (e : GoError E)
  | panicked

/-! ## Topics -/

def headTopic : String := "head"
def blockTopic : String := "block"
def attestationTopic : String := "attestation"
def voluntaryExitTopic : String := "voluntary_exit"
def finalizedCheckpointTopic : String := "finalized_checkpoint"
def chainReorgTopic : String := "chain_reorg"

/-- A Go `map[string]bool`: the value stored under a key, `none` for an absent
key. -/
abbrev TopicMap := String → Option Bool

/-- The map `make(map[string]bool)`. -/
def TopicMap.empty : TopicMap := fun _ => none

/-- The assignment `m[k] = v`. -/
def TopicMap.set (m : TopicMap) (k : String) (v : Bool) : TopicMap :=
  fun x => if x = k then some v else m x

/-- The `ok` of `_, ok := m[k]`. -/
def TopicMap.has (m : TopicMap) (k : String) : Bool := (m k).isSome

/-- The package-level map literal `casesHandled`. -/
def casesHandled : TopicMap :=
  (((((TopicMap.empty.set headTopic true).set blockTopic true).set attestationTopic true).set
    voluntaryExitTopic true).set finalizedCheckpointTopic true).set chainReorgTopic true

/-! ## Data model -/

/-- The types of the other packages that the file mentions. -/
structure Schema where
  /-- error values of the collaborators -/
  Err : Type
  /-- The Go name is `block.SignedBeaconBlock` (the interface value held by `ReceivedBlockData`) -/
  SignedBeaconBlock : Type
  /-- The Go name is `*ethpb.SignedBeaconBlockHeader` as returned by the migration -/
  SignedBeaconBlockHeader : Type
  /-- The Go name is `*ethpb_alpha.AggregateAttestationAndProof` -/
  AggregateAttestationAndProof : Type
  /-- The Go name is `*ethpb_alpha.Attestation` -/
  Attestation : Type
  /-- The Go name is `*ethpb_alpha.SignedVoluntaryExit` -/
  SignedVoluntaryExit : Type
  /-- the v1 aggregate attestation message -/
  V1AggregateAttestationAndProof : Type
  /-- the v1 attestation message -/
  V1Attestation : Type
  /-- the v1 signed voluntary exit message -/
  V1SignedVoluntaryExit : Type
  /-- The Go name is `*ethpb.EventHead` -/
  EventHead : Type
  /-- The Go name is `*ethpb.EventFinalizedCheckpoint` -/
  EventFinalizedCheckpoint : Type
  /-- The Go name is `*ethpb.EventChainReorg` -/
  EventChainReorg : Type
  /-- every other dynamic type a feed event may carry -/
  Other : Type
  /-- The Go name is `*anypb.Any` -/
  Any : Type
  /-- the state of the outbound stream `ethpb.Events_StreamEventsServer` -/
  Stream : Type

/-- The struct `ethpb.EventBlock` with the two fields the file sets. -/
structure EventBlock where
  Slot : Nat
  Block : List Nat

/-- The struct `blockfeed.ReceivedBlockData` (the field the file reads). -/
structure ReceivedBlockData (S : Schema) where
  SignedBlock : S.SignedBeaconBlock

/-- The struct `operation.AggregatedAttReceivedData`. -/
structure AggregatedAttReceivedData (S : Schema) where
  Attestation : S.AggregateAttestationAndProof

/-- The struct `operation.UnAggregatedAttReceivedData`. -/
structure UnAggregatedAttReceivedData (S : Schema) where
  Attestation : S.Attestation

/-- The struct `operation.ExitReceivedData`. -/
structure ExitReceivedData (S : Schema) where
  Exit : S.SignedVoluntaryExit

/-- A non-nil value of the field `Data interface{}` of a feed event, by dynamic
type.  The four pointers the classifiers dereference are options: `none` is the
typed nil pointer. -/
inductive Payload (S : Schema) where
  | receivedBlockData (p : Option (ReceivedBlockData S))
  | aggregatedAttReceivedData (p : Option (AggregatedAttReceivedData S))
  | unAggregatedAttReceivedData (p : Option (UnAggregatedAttReceivedData S))
  | exitReceivedData (p : Option (ExitReceivedData S))
  | eventHead (p : S.EventHead)
  | eventFinalizedCheckpoint (p : S.EventFinalizedCheckpoint)
  | eventChainReorg (p : S.EventChainReorg)
  | other (v : S.Other)

/-- The struct `feed.Event`: `Typ` is its field `Type`, `Data` is `none` for a nil
interface. -/
structure Event (S : Schema) where
  Typ : Nat
  Data : Option (Payload S)

/-- The `proto.Message` values that the file hands to `streamData`. -/
inductive ProtoMessage (S : Schema) where
  | eventBlock (m : EventBlock)
  | aggregateAttestationAndProof (m : S.V1AggregateAttestationAndProof)
  | attestation (m : S.V1Attestation)
  | signedVoluntaryExit (m : S.V1SignedVoluntaryExit)
  | eventHead (m : S.EventHead)
  | eventFinalizedCheckpoint (m : S.EventFinalizedCheckpoint)
  | eventChainReorg (m : S.EventChainReorg)

/-- The struct `gwpb.EventSource`: the envelope written on the stream. -/
structure EventSource (S : Schema) where
  Event : String
  Data : S.Any

/-- The three feeds of the server. -/
inductive Feed where
  | block
  | operation
  | state
  deriving DecidableEq, Repr

/-- The observable actions of a call. `send env ok` is a call of `stream.Send` on
`env`; `ok` tells whether it returned a nil error. -/
inductive Effect (S : Schema) where
  | subscribe (f : Feed)
  | unsubscribe (f : Feed)
  | send (env : EventSource S) (ok : Bool)

/-- The collaborators: the schema, the event kind constants of the three feed
packages, and the functions of other packages that the file calls. -/
structure Collab extends Schema where
  /-- The Go name is `blockfeed.ReceivedBlock` -/
  ReceivedBlock : Nat
  /-- The Go name is `operation.AggregatedAttReceived` -/
  AggregatedAttReceived : Nat
  /-- The Go name is `operation.UnaggregatedAttReceived` -/
  UnaggregatedAttReceived : Nat
  /-- The Go name is `operation.ExitReceived` -/
  ExitReceived : Nat
  /-- The Go name is `statefeed.NewHead` -/
  NewHead : Nat
  /-- The Go name is `statefeed.FinalizedCheckpoint` -/
  FinalizedCheckpoint : Nat
  /-- The Go name is `statefeed.Reorg` -/
  Reorg : Nat
  /-- the case constants of one `switch` are pairwise different (Go rejects
  duplicate constant cases) -/
  opsDistinct : AggregatedAttReceived ≠ UnaggregatedAttReceived ∧
    AggregatedAttReceived ≠ ExitReceived ∧ UnaggregatedAttReceived ≠ ExitReceived
  /-- the same for the state feed constants -/
  stateDistinct : NewHead ≠ FinalizedCheckpoint ∧ NewHead ≠ Reorg ∧ FinalizedCheckpoint ≠ Reorg
  /-- The Go name is `migration.BlockIfaceToV1BlockHeader` -/
  BlockIfaceToV1BlockHeader : SignedBeaconBlock → Except Err SignedBeaconBlockHeader
  /-- the method `HashTreeRoot` of the signed header: a `[32]byte` or an error -/
  HashTreeRoot : SignedBeaconBlockHeader → Except Err { l : List Nat // l.length = 32 }
  /-- the field path `v1Data.Message.Slot` -/
  MessageSlot : SignedBeaconBlockHeader → Nat
  /-- The Go name is `migration.V1Alpha1AggregateAttAndProofToV1` -/
  V1Alpha1AggregateAttAndProofToV1 : AggregateAttestationAndProof → V1AggregateAttestationAndProof
  /-- The Go name is `migration.V1Alpha1AttestationToV1` -/
  V1Alpha1AttestationToV1 : Attestation → V1Attestation
  /-- The Go name is `migration.V1Alpha1ExitToV1` -/
  V1Alpha1ExitToV1 : SignedVoluntaryExit → V1SignedVoluntaryExit
  /-- The Go name is `anypb.New` -/
  anypbNew : ProtoMessage toSchema → Except Err Any
  /-- The Go name is `stream.Send`: the next stream state and the error, if any -/
  Send : Stream → EventSource toSchema → Stream × Option Err

/-- The result of a classifier: what it returned, the stream afterwards, and the
effects it performed. -/
structure Outcome (C : Collab) where
  ret : Ret C.Err
  stream : C.Stream
  effects : List (Effect C.toSchema)

/-! ## The classifiers -/

/-- The method `streamData`. -/
def streamData (C : Collab) (stream : C.Stream) (name : String)
    (data : ProtoMessage C.toSchema) : Outcome C :=
  match C.anypbNew data with
  | .error err => ⟨.err (.ext err), stream, []⟩
  | .ok returnData =>
    match C.Send stream ⟨name, returnData⟩ with
    | (stream2, none) => ⟨.nil, stream2, [.send ⟨name, returnData⟩ true]⟩
    | (stream2, some err) => ⟨.err (.ext err), stream2, [.send ⟨name, returnData⟩ false]⟩

/-- The method `handleBlockEvents`. The argument `event` is the pointer
`*feed.Event`, `none` when nil. -/
def handleBlockEvents (C : Collab) (stream : C.Stream) (requestedTopics : TopicMap)
    (event : Option (Event C.toSchema)) : Outcome C :=
  match event with
  | none => ⟨.panicked, stream, []⟩
  | some event =>
    if event.Typ = C.ReceivedBlock then
      if !requestedTopics.has blockTopic then ⟨.nil, stream, []⟩
      else
        match event.Data with
        | some (.receivedBlockData blkData) =>
          match blkData with
          | none => ⟨.panicked, stream, []⟩
          | some blkData =>
            match C.BlockIfaceToV1BlockHeader blkData.SignedBlock with
            | .error err => ⟨.err (.ext err), stream, []⟩
            | .ok v1Data =>
              match C.HashTreeRoot v1Data with
              | .error err =>
                ⟨.err (.statusE .Internal "could not hash tree root block %v" (.ext err)), stream, []⟩
              | .ok item =>
                streamData C stream blockTopic (.eventBlock ⟨C.MessageSlot v1Data, item.val⟩)
        | _ => ⟨.nil, stream, []⟩
    else ⟨.nil, stream, []⟩

/-- The method `handleBlockOperationEvents`. -/
def handleBlockOperationEvents (C : Collab) (stream : C.Stream) (requestedTopics : TopicMap)
    (event : Option (Event C.toSchema)) : Outcome C :=
  match event with
  | none => ⟨.panicked, stream, []⟩
  | some event =>
    if event.Typ = C.AggregatedAttReceived then
      if !requestedTopics.has attestationTopic then ⟨.nil, stream, []⟩
      else
        match event.Data with
        | some (.aggregatedAttReceivedData attData) =>
          match attData with
          | none => ⟨.panicked, stream, []⟩
          | some attData =>
            streamData C stream attestationTopic
              (.aggregateAttestationAndProof (C.V1Alpha1AggregateAttAndProofToV1 attData.Attestation))
        | _ => ⟨.nil, stream, []⟩
    else if event.Typ = C.UnaggregatedAttReceived then
      if !requestedTopics.has attestationTopic then ⟨.nil, stream, []⟩
      else
        match event.Data with
        | some (.unAggregatedAttReceivedData attData) =>
          match attData with
          | none => ⟨.panicked, stream, []⟩
          | some attData =>
            streamData C stream attestationTopic
              (.attestation (C.V1Alpha1AttestationToV1 attData.Attestation))
        | _ => ⟨.nil, stream, []⟩
    else if event.Typ = C.ExitReceived then
      if !requestedTopics.has voluntaryExitTopic then ⟨.nil, stream, []⟩
      else
        match event.Data with
        | some (.exitReceivedData exitData) =>
          match exitData with
          | none => ⟨.panicked, stream, []⟩
          | some exitData =>
            streamData C stream voluntaryExitTopic
              (.signedVoluntaryExit (C.V1Alpha1ExitToV1 exitData.Exit))
        | _ => ⟨.nil, stream, []⟩
    else ⟨.nil, stream, []⟩

/-- The method `handleStateEvents`. -/
def handleStateEvents (C : Collab) (stream : C.Stream) (requestedTopics : TopicMap)
    (event : Option (Event C.toSchema)) : Outcome C :=
  match event with
  | none => ⟨.panicked, stream, []⟩
  | some event =>
    if event.Typ = C.NewHead then
      if !requestedTopics.has headTopic then ⟨.nil, stream, []⟩
      else
        match event.Data with
        | some (.eventHead head) => streamData C stream headTopic (.eventHead head)
        | _ => ⟨.nil, stream, []⟩
    else if event.Typ = C.FinalizedCheckpoint then
      if !requestedTopics.has finalizedCheckpointTopic then ⟨.nil, stream, []⟩
      else
        match event.Data with
        | some (.eventFinalizedCheckpoint finalizedCheckpoint) =>
          streamData C stream finalizedCheckpointTopic (.eventFinalizedCheckpoint finalizedCheckpoint)
        | _ => ⟨.nil, stream, []⟩
    else if event.Typ = C.Reorg then
      if !requestedTopics.has chainReorgTopic then ⟨.nil, stream, []⟩
      else
        match event.Data with
        | some (.eventChainReorg reorg) => streamData C stream chainReorgTopic (.eventChainReorg reorg)
        | _ => ⟨.nil, stream, []⟩
    else ⟨.nil, stream, []⟩

/-! ## The call -/

/-- The struct `ethpb.StreamEventsRequest`. -/
structure StreamEventsRequest where
  Topics : List String

/-- The case of the `select` statement that fires at one iteration of the loop:
an event received from one of the three channels, or one of the two contexts
being done. -/
inductive Ready (S : Schema) where
  | blockChan (event : Option (Event S))
  | opsChan (event : Option (Event S))
  | stateChan (event : Option (Event S))
  | ctxDone
  | streamCtxDone

/-- How far a call got: still blocked in `select`, returned with an error, or
unwound by a panic. -/
inductive CallResult (E : Type) where
  | running
  | returned (err : GoError E)
  | panicked

/-- The result of a call of `StreamEvents` on a list of ready items. -/
structure CallOutcome (C : Collab) where
  result : CallResult C.Err
  stream : C.Stream
  effects : List (Effect C.toSchema)
  /-- the ready items that the loop never took -/
  unconsumed : List (Ready C.toSchema)

/-- The `for _, topic := range req.Topics` loop of `StreamEvents`: the error it
returns, or the map it fills. -/
def StreamEvents.topicsLoop (E : Type) : List String → TopicMap → Except (GoError E) TopicMap
  | [], requestedTopics => .ok requestedTopics
  | topic :: rest, requestedTopics =>
    if !casesHandled.has topic then
      .error (.statusS .InvalidArgument "topic %s not allowed for event subscriptions" topic)
    else StreamEvents.topicsLoop E rest (requestedTopics.set topic true)

/-- One arm of the `select`: continue the loop after a classifier returned nil,
or leave it with the wrapped error. -/
def StreamEvents.afterHandler (C : Collab) (format : String) (o : Outcome C)
    (rest : List (Ready C.toSchema)) (next : C.Stream → CallOutcome C) : CallOutcome C :=
  match o.ret with
  | .nil =>
    let k := next o.stream
    { k with effects := o.effects ++ k.effects }
  | .err err => ⟨.returned (.statusE .Internal format err), o.stream, o.effects, rest⟩
  | .panicked => ⟨.panicked, o.stream, o.effects, rest⟩

/-- The `for { select { ... } }` loop of `StreamEvents`. -/
def StreamEvents.loop (C : Collab) (requestedTopics : TopicMap) :
    C.Stream → List (Ready C.toSchema) → CallOutcome C
  | stream, [] => ⟨.running, stream, [], []⟩
  | stream, .blockChan event :: rest =>
    StreamEvents.afterHandler C "could not handle block event: %v"
      (handleBlockEvents C stream requestedTopics event) rest
      (fun stream2 => StreamEvents.loop C requestedTopics stream2 rest)
  | stream, .opsChan event :: rest =>
    StreamEvents.afterHandler C "could not handle block operations event: %v"
      (handleBlockOperationEvents C stream requestedTopics event) rest
      (fun stream2 => StreamEvents.loop C requestedTopics stream2 rest)
  | stream, .stateChan event :: rest =>
    StreamEvents.afterHandler C "could not handle state event: %v"
      (handleStateEvents C stream requestedTopics event) rest
      (fun stream2 => StreamEvents.loop C requestedTopics stream2 rest)
  | stream, .ctxDone :: rest => ⟨.returned (.status .Canceled "context canceled"), stream, [], rest⟩
  | stream, .streamCtxDone :: rest =>
    ⟨.returned (.status .Canceled "context canceled"), stream, [], rest⟩

/-- The deferred calls, in the order they run when the function is left. -/
def StreamEvents.deferred (S : Schema) : List (Effect S) :=
  [.unsubscribe .state, .unsubscribe .operation, .unsubscribe .block]

/-- The part of `StreamEvents` after validation: the three subscriptions, the
loop, and the deferred calls that run once the function is left. -/
def StreamEvents.subscribed (C : Collab) (requestedTopics : TopicMap) (stream : C.Stream)
    (ready : List (Ready C.toSchema)) : CallOutcome C :=
  let k := StreamEvents.loop C requestedTopics stream ready
  match k.result with
  | .running =>
    { k with effects := [.subscribe .block, .subscribe .operation, .subscribe .state] ++ k.effects }
  | _ =>
    { k with effects := [.subscribe .block, .subscribe .operation, .subscribe .state] ++
        k.effects ++ StreamEvents.deferred C.toSchema }

/-- The method `StreamEvents`. `req` is `none` for a nil request; `ready` resolves
the `select` of each iteration. -/
def StreamEvents (C : Collab) (req : Option StreamEventsRequest) (stream : C.Stream)
    (ready : List (Ready C.toSchema)) : CallOutcome C :=
  match req with
  | none => ⟨.returned (.status .InvalidArgument "no topics specified to subscribe to"), stream, [], ready⟩
  | some req =>
    if req.Topics.length = 0 then
      ⟨.returned (.status .InvalidArgument "no topics specified to subscribe to"), stream, [], ready⟩
    else
      match StreamEvents.topicsLoop C.Err req.Topics TopicMap.empty with
      | .error err => ⟨.returned err, stream, [], ready⟩
      | .ok requestedTopics => StreamEvents.subscribed C requestedTopics stream ready

/-- The map that the validation loop of `StreamEvents` leaves in `requestedTopics`
when every listed topic passes: each listed name is set to `true`. -/
def topicSet (topics : List String) : TopicMap :=
  fun x => if x ∈ topics then some true else none

/-! ## Views of the effect log -/

/-- The feed an effect subscribes to. -/
def Effect.subscribedFeed {S : Schema} : Effect S → Option Feed
  | .subscribe f => some f
  | _ => none

/-- The feed an effect unsubscribes from. -/
def Effect.unsubscribedFeed {S : Schema} : Effect S → Option Feed
  | .unsubscribe f => some f
  | _ => none

/-- The envelope an effect writes: a `Send` that returned nil. -/
def Effect.wrote {S : Schema} : Effect S → Option (EventSource S)
  | .send env true => some env
  | _ => none

/-- The envelopes written in a log, in order. -/
def written {S : Schema} (effects : List (Effect S)) : List (EventSource S) :=
  effects.filterMap Effect.wrote

/-! ## Predicates on outcomes and effects -/

/-- The three shapes of the outcome of a classifier that was given the topic map
`m`: no effect; one successful `Send` and a nil result; one failed `Send` and an
error. The envelope, if any, is named after a topic of `m`. -/
def Outcome.Shaped {C : Collab} (m : TopicMap) (o : Outcome C) : Prop :=
  o.effects = [] ∨
  (∃ env, o.effects = [.send env true] ∧ o.ret = .nil ∧ m.has env.Event = true ∧
      casesHandled.has env.Event = true) ∨
  (∃ env e, o.effects = [.send env false] ∧ o.ret = .err e ∧ m.has env.Event = true ∧
      casesHandled.has env.Event = true)

/-- The effect is a `Send` of an envelope named after a registry topic present in
the map `m`. -/
def Effect.IsRequestedSend {S : Schema} (m : TopicMap) (eff : Effect S) : Prop :=
  ∃ env ok, eff = .send env ok ∧ m.has env.Event = true ∧ casesHandled.has env.Event = true

/-! ## A concrete collaborator

Blocks and headers are pairs (slot, body), a block with body `0` cannot be
translated, the hash of a header is its body repeated 32 times, the other
translations are the identity, serialization lists a tag and the fields, and the
stream accepts three envelopes, then fails. -/

/-- The types of the concrete collaborator. -/
@[reducible] def demoSchema : Schema where
  Err := String
  SignedBeaconBlock := Nat × Nat
  SignedBeaconBlockHeader := Nat × Nat
  AggregateAttestationAndProof := Nat
  Attestation := Nat
  SignedVoluntaryExit := Nat
  V1AggregateAttestationAndProof := Nat
  V1Attestation := Nat
  V1SignedVoluntaryExit := Nat
  EventHead := Nat × List Nat
  EventFinalizedCheckpoint := Nat
  EventChainReorg := Nat
  Other := Nat
  Any := List Nat
  Stream := Nat

/-- The serialization of the concrete collaborator. -/
def demoAnypbNew : ProtoMessage demoSchema → Except String (List Nat)
  | .eventBlock m => .ok (0 :: m.Slot :: m.Block)
  | .aggregateAttestationAndProof m => .ok [1, m]
  | .attestation m => .ok [2, m]
  | .signedVoluntaryExit m => .ok [3, m]
  | .eventHead m => .ok (4 :: m.1 :: m.2)
  | .eventFinalizedCheckpoint m => if (m : Nat) = 0 then .error "cannot marshal" else .ok [5, m]
  | .eventChainReorg m => .ok [6, m]

/-- The stream of the concrete collaborator: the number of envelopes accepted. -/
def demoSend (n : Nat) (_ : EventSource demoSchema) : Nat × Option String :=
  if n < 3 then (n + 1, none) else (n, some "stream closed")

/-- The concrete collaborator. The event kind constants of one feed are
numbered apart from each other. -/
def demo : Collab where
  toSchema := demoSchema
  ReceivedBlock := 1
  UnaggregatedAttReceived := 1
  AggregatedAttReceived := 2
  ExitReceived := 3
  Reorg := 5
  FinalizedCheckpoint := 6
  NewHead := 7
  opsDistinct := by decide
  stateDistinct := by decide
  BlockIfaceToV1BlockHeader := fun (b : Nat × Nat) =>
    if b.2 = 0 then .error "nil block body" else .ok b
  HashTreeRoot := fun (h : Nat × Nat) => .ok ⟨List.replicate 32 h.2, List.length_replicate 32 h.2⟩
  MessageSlot := fun (h : Nat × Nat) => h.1
  V1Alpha1AggregateAttAndProofToV1 := fun (a : Nat) => a
  V1Alpha1AttestationToV1 := fun (a : Nat) => a
  V1Alpha1ExitToV1 := fun (a : Nat) => a
  anypbNew := demoAnypbNew
  Send := demoSend


/-! ## Lemmas on validation -/

theorem casesHandled_has (t : String) :
    casesHandled.has t = true ↔
      t ∈ ["head", "block", "attestation", "voluntary_exit", "finalized_checkpoint",
        "chain_reorg"] := by
  simp only [casesHandled, TopicMap.has, TopicMap.set, TopicMap.empty, headTopic, blockTopic,
    attestationTopic, voluntaryExitTopic, finalizedCheckpointTopic, chainReorgTopic,
    List.mem_cons, List.mem_singleton, List.not_mem_nil, or_false]
  constructor
  · intro h
    by_contra hne
    simp only [not_or] at hne
    obtain ⟨h1, h2, h3, h4, h5, h6⟩ := hne
    simp [h1, h2, h3, h4, h5, h6] at h
  · intro h
    split_ifs <;> simp_all

theorem casesHandled_has_false (t : String) :
    casesHandled.has t = false ↔
      t ∉ ["head", "block", "attestation", "voluntary_exit", "finalized_checkpoint",
        "chain_reorg"] := by
  rw [← casesHandled_has]
  cases casesHandled.has t <;> simp

theorem topicsLoop_ok (E : Type) :
    ∀ (l : List String) (m : TopicMap), (∀ t ∈ l, casesHandled.has t = true) →
      StreamEvents.topicsLoop E l m = .ok (fun x => if x ∈ l then some true else m x) := by
  intro l
  induction l with
  | nil => intro m _; simp [StreamEvents.topicsLoop]
  | cons a l ih =>
    intro m h
    have ha : casesHandled.has a = true := h a (List.mem_cons_self a l)
    have hl : ∀ t ∈ l, casesHandled.has t = true := fun t ht => h t (List.mem_cons_of_mem a ht)
    simp only [StreamEvents.topicsLoop, ha, Bool.not_true, Bool.false_eq_true, if_false]
    rw [ih _ hl]
    congr 1
    funext x
    by_cases hx : x ∈ l
    · simp [hx]
    · by_cases hxa : x = a <;> simp [hx, hxa, TopicMap.set]

theorem topicsLoop_error (E : Type) :
    ∀ (l : List String) (m : TopicMap), (∃ t ∈ l, casesHandled.has t = false) →
      ∃ t ∈ l, casesHandled.has t = false ∧
        StreamEvents.topicsLoop E l m =
          .error (.statusS .InvalidArgument "topic %s not allowed for event subscriptions" t) := by
  intro l
  induction l with
  | nil => intro m h; obtain ⟨t, ht, _⟩ := h; cases ht
  | cons a l ih =>
    intro m h
    by_cases ha : casesHandled.has a = true
    · obtain ⟨t, ht, hf⟩ := h
      have htl : t ∈ l := by
        rcases List.mem_cons.mp ht with rfl | h'
        · rw [ha] at hf; cases hf
        · exact h'
      obtain ⟨u, hu, huf, heq⟩ := ih (m.set a true) ⟨t, htl, hf⟩
      refine ⟨u, List.mem_cons_of_mem a hu, huf, ?_⟩
      simp only [StreamEvents.topicsLoop, ha, Bool.not_true, Bool.false_eq_true, if_false]
      exact heq
    · have ha2 : casesHandled.has a = false := by simpa using ha
      exact ⟨a, List.mem_cons_self a l, ha2, by simp [StreamEvents.topicsLoop, ha2]⟩

/-! ## Lemmas on the classifiers -/

theorem streamData_anypb_error (C : Collab) (s : C.Stream) (name : String)
    (data : ProtoMessage C.toSchema) (e : C.Err) (h : C.anypbNew data = .error e) :
    streamData C s name data = ⟨.err (.ext e), s, []⟩ := by
  simp [streamData, h]

theorem streamData_send_ok (C : Collab) (s s2 : C.Stream) (name : String)
    (data : ProtoMessage C.toSchema) (any : C.Any) (h : C.anypbNew data = .ok any)
    (hs : C.Send s ⟨name, any⟩ = (s2, none)) :
    streamData C s name data = ⟨.nil, s2, [.send ⟨name, any⟩ true]⟩ := by
  simp [streamData, h, hs]

theorem streamData_send_error (C : Collab) (s s2 : C.Stream) (name : String)
    (data : ProtoMessage C.toSchema) (any : C.Any) (e : C.Err) (h : C.anypbNew data = .ok any)
    (hs : C.Send s ⟨name, any⟩ = (s2, some e)) :
    streamData C s name data = ⟨.err (.ext e), s2, [.send ⟨name, any⟩ false]⟩ := by
  simp [streamData, h, hs]

theorem streamData_shaped (C : Collab) (m : TopicMap) (s : C.Stream) (name : String)
    (data : ProtoMessage C.toSchema) (hm : m.has name = true) (hc : casesHandled.has name = true) :
    (streamData C s name data).Shaped m := by
  cases h : C.anypbNew data with
  | error e => rw [streamData_anypb_error C s name data e h]; exact Or.inl rfl
  | ok any =>
    rcases hs : C.Send s ⟨name, any⟩ with ⟨s2, _ | e⟩
    · rw [streamData_send_ok C s s2 name data any h hs]
      exact Or.inr (Or.inl ⟨_, rfl, rfl, hm, hc⟩)
    · rw [streamData_send_error C s s2 name data any e h hs]
      exact Or.inr (Or.inr ⟨_, _, rfl, rfl, hm, hc⟩)

theorem handleBlockEvents_shaped (C : Collab) (m : TopicMap) (s : C.Stream)
    (event : Option (Event C.toSchema)) : (handleBlockEvents C s m event).Shaped m := by
  unfold handleBlockEvents
  repeat' split
  all_goals first
    | exact Or.inl rfl
    | (apply streamData_shaped
       · simp_all
       · decide)

theorem handleBlockOperationEvents_shaped (C : Collab) (m : TopicMap) (s : C.Stream)
    (event : Option (Event C.toSchema)) : (handleBlockOperationEvents C s m event).Shaped m := by
  unfold handleBlockOperationEvents
  repeat' split
  all_goals first
    | exact Or.inl rfl
    | (apply streamData_shaped
       · simp_all
       · decide)

theorem handleStateEvents_shaped (C : Collab) (m : TopicMap) (s : C.Stream)
    (event : Option (Event C.toSchema)) : (handleStateEvents C s m event).Shaped m := by
  unfold handleStateEvents
  repeat' split
  all_goals first
    | exact Or.inl rfl
    | (apply streamData_shaped
       · simp_all
       · decide)

/-! ## Lemmas on the loop -/

theorem Outcome.Shaped.sends {C : Collab} {m : TopicMap} {o : Outcome C} (h : o.Shaped m) :
    ∀ eff ∈ o.effects, eff.IsRequestedSend m := by
  intro eff heff
  rcases h with h | ⟨env, h, _, hm, hc⟩ | ⟨env, e, h, _, hm, hc⟩
  · rw [h] at heff; cases heff
  · rw [h] at heff
    rw [List.mem_singleton] at heff
    exact ⟨env, true, heff, hm, hc⟩
  · rw [h] at heff
    rw [List.mem_singleton] at heff
    exact ⟨env, false, heff, hm, hc⟩

theorem afterHandler_sends (C : Collab) (m : TopicMap) (format : String) (o : Outcome C)
    (rest : List (Ready C.toSchema)) (next : C.Stream → CallOutcome C)
    (ho : ∀ eff ∈ o.effects, eff.IsRequestedSend m)
    (hn : ∀ s, ∀ eff ∈ (next s).effects, eff.IsRequestedSend m) :
    ∀ eff ∈ (StreamEvents.afterHandler C format o rest next).effects, eff.IsRequestedSend m := by
  unfold StreamEvents.afterHandler
  split
  · intro eff heff
    rcases List.mem_append.mp heff with h | h
    · exact ho eff h
    · exact hn _ eff h
  · exact ho
  · exact ho

theorem loop_sends (C : Collab) (m : TopicMap) :
    ∀ (ready : List (Ready C.toSchema)) (s : C.Stream),
      ∀ eff ∈ (StreamEvents.loop C m s ready).effects, eff.IsRequestedSend m := by
  intro ready
  induction ready with
  | nil => intro s eff h; simp [StreamEvents.loop] at h
  | cons r rest ih =>
    intro s
    cases r with
    | blockChan event =>
      rw [StreamEvents.loop]
      exact afterHandler_sends C m _ _ rest _ (handleBlockEvents_shaped C m s event).sends
        (fun s2 => ih s2)
    | opsChan event =>
      rw [StreamEvents.loop]
      exact afterHandler_sends C m _ _ rest _ (handleBlockOperationEvents_shaped C m s event).sends
        (fun s2 => ih s2)
    | stateChan event =>
      rw [StreamEvents.loop]
      exact afterHandler_sends C m _ _ rest _ (handleStateEvents_shaped C m s event).sends
        (fun s2 => ih s2)
    | ctxDone => intro eff h; simp [StreamEvents.loop] at h
    | streamCtxDone => intro eff h; simp [StreamEvents.loop] at h

theorem afterHandler_nil (C : Collab) (format : String) (o : Outcome C)
    (rest : List (Ready C.toSchema)) (next : C.Stream → CallOutcome C) (h : o.ret = .nil) :
    StreamEvents.afterHandler C format o rest next =
      ⟨(next o.stream).result, (next o.stream).stream, o.effects ++ (next o.stream).effects,
        (next o.stream).unconsumed⟩ := by
  simp [StreamEvents.afterHandler, h]

theorem afterHandler_err (C : Collab) (format : String) (o : Outcome C)
    (rest : List (Ready C.toSchema)) (next : C.Stream → CallOutcome C) (e : GoError C.Err)
    (h : o.ret = .err e) :
    StreamEvents.afterHandler C format o rest next =
      ⟨.returned (.statusE .Internal format e), o.stream, o.effects, rest⟩ := by
  simp [StreamEvents.afterHandler, h]

theorem afterHandler_running (C : Collab) (format : String) (o : Outcome C)
    (rest : List (Ready C.toSchema)) (next : C.Stream → CallOutcome C)
    (h : (StreamEvents.afterHandler C format o rest next).result = .running) :
    o.ret = .nil ∧ (next o.stream).result = .running := by
  unfold StreamEvents.afterHandler at h
  split at h
  · rename_i hr
    exact ⟨hr, h⟩
  · cases h
  · cases h

theorem loop_append (C : Collab) (m : TopicMap) :
    ∀ (pre : List (Ready C.toSchema)) (s : C.Stream) (post : List (Ready C.toSchema)),
      (StreamEvents.loop C m s pre).result = .running →
      StreamEvents.loop C m s (pre ++ post) =
        ⟨(StreamEvents.loop C m (StreamEvents.loop C m s pre).stream post).result,
          (StreamEvents.loop C m (StreamEvents.loop C m s pre).stream post).stream,
          (StreamEvents.loop C m s pre).effects ++
            (StreamEvents.loop C m (StreamEvents.loop C m s pre).stream post).effects,
          (StreamEvents.loop C m (StreamEvents.loop C m s pre).stream post).unconsumed⟩ := by
  intro pre
  induction pre with
  | nil => intro s post _; simp [StreamEvents.loop]
  | cons r rest ih =>
    intro s post h
    cases r with
    | blockChan event =>
      rw [StreamEvents.loop] at h
      obtain ⟨hr, hk⟩ := afterHandler_running C _ _ rest _ h
      rw [List.cons_append, StreamEvents.loop, StreamEvents.loop, afterHandler_nil C _ _ _ _ hr,
        afterHandler_nil C _ _ _ _ hr, ih _ post hk]
      simp
    | opsChan event =>
      rw [StreamEvents.loop] at h
      obtain ⟨hr, hk⟩ := afterHandler_running C _ _ rest _ h
      rw [List.cons_append, StreamEvents.loop, StreamEvents.loop, afterHandler_nil C _ _ _ _ hr,
        afterHandler_nil C _ _ _ _ hr, ih _ post hk]
      simp
    | stateChan event =>
      rw [StreamEvents.loop] at h
      obtain ⟨hr, hk⟩ := afterHandler_running C _ _ rest _ h
      rw [List.cons_append, StreamEvents.loop, StreamEvents.loop, afterHandler_nil C _ _ _ _ hr,
        afterHandler_nil C _ _ _ _ hr, ih _ post hk]
      simp
    | ctxDone => simp [StreamEvents.loop] at h
    | streamCtxDone => simp [StreamEvents.loop] at h

theorem loop_running_unconsumed (C : Collab) (m : TopicMap) :
    ∀ (ready : List (Ready C.toSchema)) (s : C.Stream),
      (StreamEvents.loop C m s ready).result = .running →
      (StreamEvents.loop C m s ready).unconsumed = [] := by
  intro ready s h
  have h2 := loop_append C m ready s [] h
  rw [List.append_nil] at h2
  rw [h2]
  simp [StreamEvents.loop]

/-! ## Lemmas on the call -/

theorem topicSet_has (topics : List String) (t : String) :
    (topicSet topics).has t = true ↔ t ∈ topics := by
  by_cases h : t ∈ topics <;> simp [topicSet, TopicMap.has, h]

theorem StreamEvents_valid (C : Collab) (topics : List String) (s : C.Stream)
    (ready : List (Ready C.toSchema)) (hne : topics ≠ [])
    (hall : ∀ t ∈ topics, casesHandled.has t = true) :
    StreamEvents C (some ⟨topics⟩) s ready = StreamEvents.subscribed C (topicSet topics) s ready := by
  have hlen : topics.length ≠ 0 := fun h => hne (List.length_eq_zero.mp h)
  have hloop := topicsLoop_ok C.Err topics TopicMap.empty hall
  simp only [StreamEvents, hlen, if_false, hloop]
  rfl

theorem StreamEvents_invalid (C : Collab) (req : Option StreamEventsRequest) (s : C.Stream)
    (ready : List (Ready C.toSchema))
    (h : req = none ∨ ∃ r, req = some r ∧
      (r.Topics = [] ∨ ∃ t ∈ r.Topics, casesHandled.has t = false)) :
    ∃ e, StreamEvents C req s ready = ⟨.returned e, s, [], ready⟩ ∧
      e.code = some .InvalidArgument := by
  rcases h with rfl | ⟨r, rfl, h⟩
  · exact ⟨_, rfl, rfl⟩
  · by_cases hlen : r.Topics.length = 0
    · exact ⟨.status .InvalidArgument "no topics specified to subscribe to",
        by simp [StreamEvents, hlen], rfl⟩
    · rcases h with h | h
      · rw [h] at hlen; exact absurd rfl hlen
      · obtain ⟨t, _, _, heq⟩ := topicsLoop_error C.Err r.Topics TopicMap.empty h
        exact ⟨.statusS .InvalidArgument "topic %s not allowed for event subscriptions" t,
          by simp [StreamEvents, hlen, heq], rfl⟩

theorem StreamEvents_running (C : Collab) (req : Option StreamEventsRequest) (s : C.Stream)
    (ready : List (Ready C.toSchema)) (h : (StreamEvents C req s ready).result = .running) :
    ∃ topics, req = some ⟨topics⟩ ∧ topics ≠ [] ∧ ∀ t ∈ topics, casesHandled.has t = true := by
  by_contra hcon
  have hinv : req = none ∨ ∃ r, req = some r ∧
      (r.Topics = [] ∨ ∃ t ∈ r.Topics, casesHandled.has t = false) := by
    cases req with
    | none => exact Or.inl rfl
    | some r =>
      refine Or.inr ⟨r, rfl, ?_⟩
      by_contra hc2
      simp only [not_or, not_exists, not_and] at hc2
      exact hcon ⟨r.Topics, rfl, hc2.1, fun t ht => by simpa using hc2.2 t ht⟩
  obtain ⟨e, heq, _⟩ := StreamEvents_invalid C req s ready hinv
  rw [heq] at h
  cases h

theorem subscribed_of_running (C : Collab) (m : TopicMap) (s : C.Stream)
    (ready : List (Ready C.toSchema)) (h : (StreamEvents.loop C m s ready).result = .running) :
    StreamEvents.subscribed C m s ready =
      ⟨.running, (StreamEvents.loop C m s ready).stream,
        [.subscribe .block, .subscribe .operation, .subscribe .state] ++
          (StreamEvents.loop C m s ready).effects, []⟩ := by
  have hu := loop_running_unconsumed C m ready s h
  simp only [StreamEvents.subscribed, h]
  rw [← hu, ← h]

theorem subscribed_of_ended (C : Collab) (m : TopicMap) (s : C.Stream)
    (ready : List (Ready C.toSchema)) (h : (StreamEvents.loop C m s ready).result ≠ .running) :
    StreamEvents.subscribed C m s ready =
      ⟨(StreamEvents.loop C m s ready).result, (StreamEvents.loop C m s ready).stream,
        [.subscribe .block, .subscribe .operation, .subscribe .state] ++
          (StreamEvents.loop C m s ready).effects ++ StreamEvents.deferred C.toSchema,
        (StreamEvents.loop C m s ready).unconsumed⟩ := by
  simp only [StreamEvents.subscribed]

theorem subscribed_result (C : Collab) (m : TopicMap) (s : C.Stream)
    (ready : List (Ready C.toSchema)) :
    (StreamEvents.subscribed C m s ready).result = (StreamEvents.loop C m s ready).result := by
  simp only [StreamEvents.subscribed]
  generalize StreamEvents.loop C m s ready = k
  obtain ⟨result, st, effs, un⟩ := k
  cases result <;> rfl

theorem subscribed_stream (C : Collab) (m : TopicMap) (s : C.Stream)
    (ready : List (Ready C.toSchema)) :
    (StreamEvents.subscribed C m s ready).stream = (StreamEvents.loop C m s ready).stream := by
  simp only [StreamEvents.subscribed]
  generalize StreamEvents.loop C m s ready = k
  obtain ⟨result, st, effs, un⟩ := k
  cases result <;> rfl

theorem loop_returned (C : Collab) (m : TopicMap) :
    ∀ (ready : List (Ready C.toSchema)) (s : C.Stream) (e : GoError C.Err),
      (StreamEvents.loop C m s ready).result = .returned e →
      e.code = some .Internal ∨ e.code = some .Canceled := by
  intro ready
  induction ready with
  | nil => intro s e h; simp [StreamEvents.loop] at h
  | cons r rest ih =>
    intro s e h
    have key : ∀ (format : String) (o : Outcome C),
        (StreamEvents.afterHandler C format o rest
          (fun s2 => StreamEvents.loop C m s2 rest)).result = .returned e →
        e.code = some .Internal ∨ e.code = some .Canceled := by
      intro format o ho
      unfold StreamEvents.afterHandler at ho
      split at ho
      · exact ih _ e ho
      · simp only [CallResult.returned.injEq] at ho
        subst ho
        exact Or.inl rfl
      · cases ho
    cases r with
    | blockChan event => rw [StreamEvents.loop] at h; exact key _ _ h
    | opsChan event => rw [StreamEvents.loop] at h; exact key _ _ h
    | stateChan event => rw [StreamEvents.loop] at h; exact key _ _ h
    | ctxDone =>
      simp only [StreamEvents.loop, CallResult.returned.injEq] at h
      subst h
      exact Or.inr rfl
    | streamCtxDone =>
      simp only [StreamEvents.loop, CallResult.returned.injEq] at h
      subst h
      exact Or.inr rfl

theorem request_valid_or_invalid (req : Option StreamEventsRequest) :
    (∃ topics, req = some ⟨topics⟩ ∧ topics ≠ [] ∧ ∀ t ∈ topics, casesHandled.has t = true) ∨
    (req = none ∨ ∃ r, req = some r ∧
      (r.Topics = [] ∨ ∃ t ∈ r.Topics, casesHandled.has t = false)) := by
  cases req with
  | none => exact Or.inr (Or.inl rfl)
  | some r =>
    by_cases hne : r.Topics = []
    · exact Or.inr (Or.inr ⟨r, rfl, Or.inl hne⟩)
    · by_cases hall : ∀ t ∈ r.Topics, casesHandled.has t = true
      · exact Or.inl ⟨r.Topics, rfl, hne, hall⟩
      · simp only [not_forall] at hall
        obtain ⟨t, ht, hf⟩ := hall
        exact Or.inr (Or.inr ⟨r, rfl, Or.inr ⟨t, ht, by simpa using hf⟩⟩)

theorem sends_no_feed {S : Schema} (m : TopicMap) (l : List (Effect S))
    (h : ∀ eff ∈ l, eff.IsRequestedSend m) :
    l.filterMap Effect.subscribedFeed = [] ∧ l.filterMap Effect.unsubscribedFeed = [] := by
  induction l with
  | nil => exact ⟨rfl, rfl⟩
  | cons a l ih =>
    obtain ⟨env, ok, rfl, _, _⟩ := h a (List.mem_cons_self a l)
    have ih2 := ih (fun eff heff => h eff (List.mem_cons_of_mem _ heff))
    simp [Effect.subscribedFeed, Effect.unsubscribedFeed, ih2.1, ih2.2]

/-! ## Theorems -/

/-- C1: a non-empty topic list drawn from the six registry names passes
validation (the three subscriptions are made and the call never ends with
InvalidArgument), while a nil request, an empty list, or a list with a name
outside the six (compared as strings, so case-sensitively) ends the call with an
InvalidArgument status, without any effect: no subscription, no envelope, no
ready item consumed. -/
theorem C1_request_validation (C : Collab) (s : C.Stream) (ready : List (Ready C.toSchema)) :
    (∀ topics : List String, topics ≠ [] →
      (∀ t ∈ topics, t ∈ ["head", "block", "attestation", "voluntary_exit",
        "finalized_checkpoint", "chain_reorg"]) →
      StreamEvents C (some ⟨topics⟩) s ready = StreamEvents.subscribed C (topicSet topics) s ready ∧
      (StreamEvents C (some ⟨topics⟩) s ready).effects.take 3 =
        [.subscribe .block, .subscribe .operation, .subscribe .state] ∧
      ∀ e, (StreamEvents C (some ⟨topics⟩) s ready).result = .returned e →
        e.code ≠ some .InvalidArgument) ∧
    (∀ req : Option StreamEventsRequest,
      (req = none ∨ ∃ r, req = some r ∧ (r.Topics = [] ∨
        ∃ t ∈ r.Topics, t ∉ ["head", "block", "attestation", "voluntary_exit",
          "finalized_checkpoint", "chain_reorg"])) →
      ∃ e, StreamEvents C req s ready = ⟨.returned e, s, [], ready⟩ ∧
        e.code = some .InvalidArgument) := by
  constructor
  · intro topics hne hall
    have hall2 : ∀ t ∈ topics, casesHandled.has t = true :=
      fun t ht => (casesHandled_has t).mpr (hall t ht)
    have heq := StreamEvents_valid C topics s ready hne hall2
    refine ⟨heq, ?_, ?_⟩
    · rw [heq]
      by_cases hr : (StreamEvents.loop C (topicSet topics) s ready).result = .running
      · rw [subscribed_of_running C _ s ready hr]; rfl
      · rw [subscribed_of_ended C _ s ready hr]; rfl
    · intro e he
      rw [heq, subscribed_result] at he
      rcases loop_returned C _ ready s e he with h | h <;> rw [h] <;> decide
  · intro req h
    apply StreamEvents_invalid
    rcases h with h | ⟨r, hr, h⟩
    · exact Or.inl h
    · refine Or.inr ⟨r, hr, ?_⟩
      rcases h with h | ⟨t, ht, hf⟩
      · exact Or.inl h
      · exact Or.inr ⟨t, ht, (casesHandled_has_false t).mpr hf⟩

/-- Witness of C1: the list head, block passes validation, and the list head,
Head (capitalised) is refused. -/
theorem C1_request_validation_witness :
    (StreamEvents demo (some ⟨["head", "block"]⟩) (0 : Nat) []).effects.take 3 =
        [.subscribe .block, .subscribe .operation, .subscribe .state] ∧
    ∃ e, StreamEvents demo (some ⟨["head", "Head"]⟩) (0 : Nat) [] = ⟨.returned e, (0 : Nat), [], []⟩ ∧
      e.code = some .InvalidArgument :=
  ⟨((C1_request_validation demo (0 : Nat) []).1 ["head", "block"] (by simp) (by simp)).2.1,
   (C1_request_validation demo (0 : Nat) []).2 (some ⟨["head", "Head"]⟩)
     (Or.inr ⟨⟨["head", "Head"]⟩, rfl, Or.inr ⟨"Head", by simp, by decide⟩⟩)⟩

/-- C4: every envelope handed to the stream by `StreamEvents`, for every request
and every list of ready items, is named after one of the six registry topics, and
that name is one of the topics of the request. -/
theorem C4_only_requested_topics (C : Collab) (req : Option StreamEventsRequest) (s : C.Stream)
    (ready : List (Ready C.toSchema)) (env : EventSource C.toSchema) (ok : Bool)
    (h : Effect.send env ok ∈ (StreamEvents C req s ready).effects) :
    env.Event ∈ ["head", "block", "attestation", "voluntary_exit", "finalized_checkpoint",
        "chain_reorg"] ∧
      ∃ r, req = some r ∧ env.Event ∈ r.Topics := by
  rcases request_valid_or_invalid req with ⟨topics, rfl, hne, hall⟩ | hinv
  · rw [StreamEvents_valid C topics s ready hne hall] at h
    have hloop : Effect.send env ok ∈ (StreamEvents.loop C (topicSet topics) s ready).effects := by
      by_cases hr : (StreamEvents.loop C (topicSet topics) s ready).result = .running
      · rw [subscribed_of_running C _ s ready hr] at h
        simpa using h
      · rw [subscribed_of_ended C _ s ready hr] at h
        simpa [StreamEvents.deferred] using h
    obtain ⟨env2, ok2, heq, hm, hc⟩ := loop_sends C (topicSet topics) ready s _ hloop
    simp only [Effect.send.injEq] at heq
    obtain ⟨rfl, rfl⟩ := heq
    exact ⟨(casesHandled_has _).mp hc, ⟨topics⟩, rfl, (topicSet_has topics _).mp hm⟩
  · obtain ⟨e, heq, _⟩ := StreamEvents_invalid C req s ready hinv
    rw [heq] at h
    cases h

/-- Witness of C4: the envelope written for a head event under the request head,
block. -/
theorem C4_only_requested_topics_witness :
    "head" ∈ ["head", "block", "attestation", "voluntary_exit", "finalized_checkpoint",
        "chain_reorg"] ∧
      ∃ r : StreamEventsRequest, some (⟨["head", "block"]⟩ : StreamEventsRequest) = some r ∧
        "head" ∈ r.Topics :=
  C4_only_requested_topics demo (some ⟨["head", "block"]⟩) (0 : Nat)
    [.stateChan (some ⟨7, some (.eventHead ((10, [0xAA]) : Nat × List Nat))⟩)]
    ⟨"head", ([4, 10, 0xAA] : List Nat)⟩ true
    (List.mem_cons_of_mem _ (List.mem_cons_of_mem _ (List.mem_cons_of_mem _
      (List.mem_cons_self _ _))))

/-- C6: a call that passes validation subscribes exactly once to each of the
block, operation and state feeds, before anything else; when the call has ended
(a handler error, either cancellation, or a panic) the log ends with the three
deferred unsubscriptions and each feed is unsubscribed exactly once; while the
call is still blocked in the loop nothing is unsubscribed. -/
theorem C6_subscriptions_released (C : Collab) (topics : List String) (s : C.Stream)
    (ready : List (Ready C.toSchema)) (hne : topics ≠ [])
    (hall : ∀ t ∈ topics, t ∈ ["head", "block", "attestation", "voluntary_exit",
      "finalized_checkpoint", "chain_reorg"]) :
    (StreamEvents C (some ⟨topics⟩) s ready).effects.filterMap Effect.subscribedFeed =
        [.block, .operation, .state] ∧
    ((StreamEvents C (some ⟨topics⟩) s ready).result ≠ .running →
      (StreamEvents C (some ⟨topics⟩) s ready).effects.filterMap Effect.unsubscribedFeed =
          [.state, .operation, .block] ∧
        ∃ body, (StreamEvents C (some ⟨topics⟩) s ready).effects =
          [.subscribe .block, .subscribe .operation, .subscribe .state] ++ body ++
            [.unsubscribe .state, .unsubscribe .operation, .unsubscribe .block] ∧
          body.filterMap Effect.subscribedFeed = [] ∧
          body.filterMap Effect.unsubscribedFeed = []) ∧
    ((StreamEvents C (some ⟨topics⟩) s ready).result = .running →
      (StreamEvents C (some ⟨topics⟩) s ready).effects.filterMap Effect.unsubscribedFeed = []) := by
  have hall2 : ∀ t ∈ topics, casesHandled.has t = true :=
    fun t ht => (casesHandled_has t).mpr (hall t ht)
  rw [StreamEvents_valid C topics s ready hne hall2]
  obtain ⟨hsub, hunsub⟩ := sends_no_feed (topicSet topics) _ (loop_sends C (topicSet topics) ready s)
  by_cases hr : (StreamEvents.loop C (topicSet topics) s ready).result = .running
  · rw [subscribed_of_running C _ s ready hr]
    refine ⟨?_, fun h => absurd rfl h, fun _ => ?_⟩
    · simp [List.filterMap_append, hsub, Effect.subscribedFeed]
    · simp [List.filterMap_append, hunsub, Effect.unsubscribedFeed]
  · rw [subscribed_of_ended C _ s ready hr]
    refine ⟨?_, fun _ => ⟨?_, _, rfl, hsub, hunsub⟩, fun h => absurd h hr⟩
    · simp [List.filterMap_append, hsub, Effect.subscribedFeed, StreamEvents.deferred]
    · simp [List.filterMap_append, hunsub, Effect.unsubscribedFeed, StreamEvents.deferred]

/-- Witness of C6: the request head, and a run ended by the service context. -/
theorem C6_subscriptions_released_witness :
    (StreamEvents demo (some ⟨["head"]⟩) (0 : Nat) [.ctxDone]).effects.filterMap
        Effect.subscribedFeed = [.block, .operation, .state] ∧
    (StreamEvents demo (some ⟨["head"]⟩) (0 : Nat) [.ctxDone]).effects.filterMap
        Effect.unsubscribedFeed = [.state, .operation, .block] :=
  ⟨(C6_subscriptions_released demo ["head"] (0 : Nat) [.ctxDone] (by simp) (by simp)).1,
   ((C6_subscriptions_released demo ["head"] (0 : Nat) [.ctxDone] (by simp) (by simp)).2.1
      (fun h => by cases h)).1⟩

/-- C7: once the loop, still running after the ready items `pre`, takes a
cancellation signal (the service context or the caller context of the stream
being done), the call returns the status Canceled; the items after the signal
stay unconsumed, the stream is as `pre` left it, and the only effects after those
of `pre` are the three deferred unsubscriptions: nothing more is written. -/
theorem C7_cancellation (C : Collab) (req : Option StreamEventsRequest) (s : C.Stream)
    (pre post : List (Ready C.toSchema))
    (h : (StreamEvents C req s pre).result = .running) :
    StreamEvents C req s (pre ++ .ctxDone :: post) =
        ⟨.returned (.status .Canceled "context canceled"), (StreamEvents C req s pre).stream,
          (StreamEvents C req s pre).effects ++
            [.unsubscribe .state, .unsubscribe .operation, .unsubscribe .block], post⟩ ∧
    StreamEvents C req s (pre ++ .streamCtxDone :: post) =
        ⟨.returned (.status .Canceled "context canceled"), (StreamEvents C req s pre).stream,
          (StreamEvents C req s pre).effects ++
            [.unsubscribe .state, .unsubscribe .operation, .unsubscribe .block], post⟩ := by
  obtain ⟨topics, rfl, hne, hall⟩ := StreamEvents_running C req s pre h
  rw [StreamEvents_valid C topics s pre hne hall, subscribed_result] at h
  rw [StreamEvents_valid C topics s _ hne hall, StreamEvents_valid C topics s _ hne hall,
    StreamEvents_valid C topics s _ hne hall, subscribed_of_running C _ s pre h]
  have h1 := loop_append C (topicSet topics) pre s (.ctxDone :: post) h
  have h2 := loop_append C (topicSet topics) pre s (.streamCtxDone :: post) h
  simp only [StreamEvents.loop, List.append_nil] at h1 h2
  constructor
  · rw [subscribed_of_ended C _ s _ (by rw [h1]; intro hc; cases hc), h1]
    simp [StreamEvents.deferred]
  · rw [subscribed_of_ended C _ s _ (by rw [h2]; intro hc; cases hc), h2]
    simp [StreamEvents.deferred]

/-- Witness of C7 (scenario D): request head, block; one head event is
delivered, then the caller cancels while another event is pending. -/
theorem C7_cancellation_witness :
    StreamEvents demo (some ⟨["head", "block"]⟩) (0 : Nat)
        ([.stateChan (some ⟨7, some (.eventHead ((10, [0xAA]) : Nat × List Nat))⟩)] ++
          .streamCtxDone ::
            [.stateChan (some ⟨7, some (.eventHead ((11, [0xAB]) : Nat × List Nat))⟩)]) =
      ⟨.returned (.status .Canceled "context canceled"), (1 : Nat),
        [.subscribe .block, .subscribe .operation, .subscribe .state,
          .send ⟨"head", ([4, 10, 0xAA] : List Nat)⟩ true,
          .unsubscribe .state, .unsubscribe .operation, .unsubscribe .block],
        [.stateChan (some ⟨7, some (.eventHead ((11, [0xAB]) : Nat × List Nat))⟩)]⟩ :=
  (C7_cancellation demo (some ⟨["head", "block"]⟩) (0 : Nat)
    [.stateChan (some ⟨7, some (.eventHead ((10, [0xAA]) : Nat × List Nat))⟩)]
    [.stateChan (some ⟨7, some (.eventHead ((11, [0xAB]) : Nat × List Nat))⟩)] rfl).2

/-! ### The seven cases in which a classifier calls `streamData` -/

theorem handleBlockEvents_received (C : Collab) (m : TopicMap) (st : C.Stream)
    (d : ReceivedBlockData C.toSchema) (v1Data : C.SignedBeaconBlockHeader)
    (item : { l : List Nat // l.length = 32 }) (hm : m.has blockTopic = true)
    (ht : C.BlockIfaceToV1BlockHeader d.SignedBlock = .ok v1Data)
    (hh : C.HashTreeRoot v1Data = .ok item) :
    handleBlockEvents C st m (some ⟨C.ReceivedBlock, some (.receivedBlockData (some d))⟩) =
      streamData C st blockTopic (.eventBlock ⟨C.MessageSlot v1Data, item.val⟩) := by
  simp [handleBlockEvents, hm, ht, hh]

theorem handleBlockOperationEvents_aggregated (C : Collab) (m : TopicMap) (st : C.Stream)
    (d : AggregatedAttReceivedData C.toSchema) (hm : m.has attestationTopic = true) :
    handleBlockOperationEvents C st m
        (some ⟨C.AggregatedAttReceived, some (.aggregatedAttReceivedData (some d))⟩) =
      streamData C st attestationTopic
        (.aggregateAttestationAndProof (C.V1Alpha1AggregateAttAndProofToV1 d.Attestation)) := by
  simp [handleBlockOperationEvents, hm]

theorem handleBlockOperationEvents_unaggregated (C : Collab) (m : TopicMap) (st : C.Stream)
    (d : UnAggregatedAttReceivedData C.toSchema) (hm : m.has attestationTopic = true) :
    handleBlockOperationEvents C st m
        (some ⟨C.UnaggregatedAttReceived, some (.unAggregatedAttReceivedData (some d))⟩) =
      streamData C st attestationTopic (.attestation (C.V1Alpha1AttestationToV1 d.Attestation)) := by
  have h1 : C.UnaggregatedAttReceived ≠ C.AggregatedAttReceived := C.opsDistinct.1.symm
  simp [handleBlockOperationEvents, hm, h1]

theorem handleBlockOperationEvents_exit (C : Collab) (m : TopicMap) (st : C.Stream)
    (d : ExitReceivedData C.toSchema) (hm : m.has voluntaryExitTopic = true) :
    handleBlockOperationEvents C st m
        (some ⟨C.ExitReceived, some (.exitReceivedData (some d))⟩) =
      streamData C st voluntaryExitTopic (.signedVoluntaryExit (C.V1Alpha1ExitToV1 d.Exit)) := by
  have h1 : C.ExitReceived ≠ C.AggregatedAttReceived := C.opsDistinct.2.1.symm
  have h2 : C.ExitReceived ≠ C.UnaggregatedAttReceived := C.opsDistinct.2.2.symm
  simp [handleBlockOperationEvents, hm, h1, h2]

theorem handleStateEvents_head (C : Collab) (m : TopicMap) (st : C.Stream) (head : C.EventHead)
    (hm : m.has headTopic = true) :
    handleStateEvents C st m (some ⟨C.NewHead, some (.eventHead head)⟩) =
      streamData C st headTopic (.eventHead head) := by
  simp [handleStateEvents, hm]

theorem handleStateEvents_finalized (C : Collab) (m : TopicMap) (st : C.Stream)
    (finalizedCheckpoint : C.EventFinalizedCheckpoint)
    (hm : m.has finalizedCheckpointTopic = true) :
    handleStateEvents C st m
        (some ⟨C.FinalizedCheckpoint, some (.eventFinalizedCheckpoint finalizedCheckpoint)⟩) =
      streamData C st finalizedCheckpointTopic (.eventFinalizedCheckpoint finalizedCheckpoint) := by
  have h1 : C.FinalizedCheckpoint ≠ C.NewHead := C.stateDistinct.1.symm
  simp [handleStateEvents, hm, h1]

theorem handleStateEvents_reorg (C : Collab) (m : TopicMap) (st : C.Stream)
    (reorg : C.EventChainReorg) (hm : m.has chainReorgTopic = true) :
    handleStateEvents C st m (some ⟨C.Reorg, some (.eventChainReorg reorg)⟩) =
      streamData C st chainReorgTopic (.eventChainReorg reorg) := by
  have h1 : C.Reorg ≠ C.NewHead := C.stateDistinct.2.1.symm
  have h2 : C.Reorg ≠ C.FinalizedCheckpoint := C.stateDistinct.2.2.symm
  simp [handleStateEvents, hm, h1, h2]

/-! ### A loop iteration on an event that the classifier lets pass -/

theorem loop_blockChan_skip (C : Collab) (m : TopicMap) (st : C.Stream)
    (event : Option (Event C.toSchema)) (rest : List (Ready C.toSchema))
    (h : handleBlockEvents C st m event = ⟨.nil, st, []⟩) :
    StreamEvents.loop C m st (.blockChan event :: rest) = StreamEvents.loop C m st rest := by
  rw [StreamEvents.loop, h, afterHandler_nil C _ _ _ _ rfl]
  rfl

theorem loop_opsChan_skip (C : Collab) (m : TopicMap) (st : C.Stream)
    (event : Option (Event C.toSchema)) (rest : List (Ready C.toSchema))
    (h : handleBlockOperationEvents C st m event = ⟨.nil, st, []⟩) :
    StreamEvents.loop C m st (.opsChan event :: rest) = StreamEvents.loop C m st rest := by
  rw [StreamEvents.loop, h, afterHandler_nil C _ _ _ _ rfl]
  rfl

theorem loop_stateChan_skip (C : Collab) (m : TopicMap) (st : C.Stream)
    (event : Option (Event C.toSchema)) (rest : List (Ready C.toSchema))
    (h : handleStateEvents C st m event = ⟨.nil, st, []⟩) :
    StreamEvents.loop C m st (.stateChan event :: rest) = StreamEvents.loop C m st rest := by
  rw [StreamEvents.loop, h, afterHandler_nil C _ _ _ _ rfl]
  rfl

theorem loop_single_written (C : Collab) (m : TopicMap) (st st2 : C.Stream)
    (r : Ready C.toSchema) (env : EventSource C.toSchema)
    (h : (match r with
        | .blockChan event => handleBlockEvents C st m event = ⟨.nil, st2, [.send env true]⟩
        | .opsChan event => handleBlockOperationEvents C st m event = ⟨.nil, st2, [.send env true]⟩
        | .stateChan event => handleStateEvents C st m event = ⟨.nil, st2, [.send env true]⟩
        | _ => False)) :
    StreamEvents.loop C m st [r] = ⟨.running, st2, [.send env true], []⟩ := by
  cases r with
  | blockChan event =>
    simp only at h
    rw [StreamEvents.loop, h, afterHandler_nil C _ _ _ _ rfl]
    rfl
  | opsChan event =>
    simp only at h
    rw [StreamEvents.loop, h, afterHandler_nil C _ _ _ _ rfl]
    rfl
  | stateChan event =>
    simp only at h
    rw [StreamEvents.loop, h, afterHandler_nil C _ _ _ _ rfl]
    rfl
  | ctxDone => exact absurd h not_false
  | streamCtxDone => exact absurd h not_false

/-- C2: an event whose kind maps to a requested topic, whose payload has the
promised type (for the four payloads that the classifier dereferences, a pointer
that is not nil), and whose translation, serialization and send succeed makes its
classifier send exactly one envelope and return nil: the envelope is named after
the mapped topic (ReceivedBlock to block; AggregatedAttReceived and
UnaggregatedAttReceived to attestation; ExitReceived to voluntary_exit; NewHead
to head; FinalizedCheckpoint to finalized_checkpoint; Reorg to chain_reorg) and
carries the serialization of the translated payload (a state payload as it is, a
received block as the slot of its header and the hash of that header). The last
two parts are scenarios A and B run through `StreamEvents`. -/
theorem C2_matching_event_one_envelope (C : Collab) (requestedTopics : TopicMap)
    (stream stream2 : C.Stream) (any : C.Any) :
    (∀ (d : ReceivedBlockData C.toSchema) (v1Data : C.SignedBeaconBlockHeader)
        (item : { l : List Nat // l.length = 32 }),
      requestedTopics.has "block" = true →
      C.BlockIfaceToV1BlockHeader d.SignedBlock = .ok v1Data →
      C.HashTreeRoot v1Data = .ok item →
      C.anypbNew (.eventBlock ⟨C.MessageSlot v1Data, item.val⟩) = .ok any →
      C.Send stream ⟨"block", any⟩ = (stream2, none) →
      handleBlockEvents C stream requestedTopics
          (some ⟨C.ReceivedBlock, some (.receivedBlockData (some d))⟩) =
        ⟨.nil, stream2, [.send ⟨"block", any⟩ true]⟩) ∧
    (∀ d : AggregatedAttReceivedData C.toSchema,
      requestedTopics.has "attestation" = true →
      C.anypbNew (.aggregateAttestationAndProof
        (C.V1Alpha1AggregateAttAndProofToV1 d.Attestation)) = .ok any →
      C.Send stream ⟨"attestation", any⟩ = (stream2, none) →
      handleBlockOperationEvents C stream requestedTopics
          (some ⟨C.AggregatedAttReceived, some (.aggregatedAttReceivedData (some d))⟩) =
        ⟨.nil, stream2, [.send ⟨"attestation", any⟩ true]⟩) ∧
    (∀ d : UnAggregatedAttReceivedData C.toSchema,
      requestedTopics.has "attestation" = true →
      C.anypbNew (.attestation (C.V1Alpha1AttestationToV1 d.Attestation)) = .ok any →
      C.Send stream ⟨"attestation", any⟩ = (stream2, none) →
      handleBlockOperationEvents C stream requestedTopics
          (some ⟨C.UnaggregatedAttReceived, some (.unAggregatedAttReceivedData (some d))⟩) =
        ⟨.nil, stream2, [.send ⟨"attestation", any⟩ true]⟩) ∧
    (∀ d : ExitReceivedData C.toSchema,
      requestedTopics.has "voluntary_exit" = true →
      C.anypbNew (.signedVoluntaryExit (C.V1Alpha1ExitToV1 d.Exit)) = .ok any →
      C.Send stream ⟨"voluntary_exit", any⟩ = (stream2, none) →
      handleBlockOperationEvents C stream requestedTopics
          (some ⟨C.ExitReceived, some (.exitReceivedData (some d))⟩) =
        ⟨.nil, stream2, [.send ⟨"voluntary_exit", any⟩ true]⟩) ∧
    (∀ head : C.EventHead,
      requestedTopics.has "head" = true →
      C.anypbNew (.eventHead head) = .ok any →
      C.Send stream ⟨"head", any⟩ = (stream2, none) →
      handleStateEvents C stream requestedTopics (some ⟨C.NewHead, some (.eventHead head)⟩) =
        ⟨.nil, stream2, [.send ⟨"head", any⟩ true]⟩) ∧
    (∀ finalizedCheckpoint : C.EventFinalizedCheckpoint,
      requestedTopics.has "finalized_checkpoint" = true →
      C.anypbNew (.eventFinalizedCheckpoint finalizedCheckpoint) = .ok any →
      C.Send stream ⟨"finalized_checkpoint", any⟩ = (stream2, none) →
      handleStateEvents C stream requestedTopics
          (some ⟨C.FinalizedCheckpoint, some (.eventFinalizedCheckpoint finalizedCheckpoint)⟩) =
        ⟨.nil, stream2, [.send ⟨"finalized_checkpoint", any⟩ true]⟩) ∧
    (∀ reorg : C.EventChainReorg,
      requestedTopics.has "chain_reorg" = true →
      C.anypbNew (.eventChainReorg reorg) = .ok any →
      C.Send stream ⟨"chain_reorg", any⟩ = (stream2, none) →
      handleStateEvents C stream requestedTopics (some ⟨C.Reorg, some (.eventChainReorg reorg)⟩) =
        ⟨.nil, stream2, [.send ⟨"chain_reorg", any⟩ true]⟩) ∧
    (∀ head : C.EventHead,
      C.anypbNew (.eventHead head) = .ok any →
      C.Send stream ⟨"head", any⟩ = (stream2, none) →
      StreamEvents C (some ⟨["head"]⟩) stream [.stateChan (some ⟨C.NewHead, some (.eventHead head)⟩)] =
        ⟨.running, stream2,
          [.subscribe .block, .subscribe .operation, .subscribe .state,
            .send ⟨"head", any⟩ true], []⟩) ∧
    (∀ (d : ReceivedBlockData C.toSchema) (v1Data : C.SignedBeaconBlockHeader)
        (item : { l : List Nat // l.length = 32 }),
      C.BlockIfaceToV1BlockHeader d.SignedBlock = .ok v1Data →
      C.HashTreeRoot v1Data = .ok item →
      C.anypbNew (.eventBlock ⟨C.MessageSlot v1Data, item.val⟩) = .ok any →
      C.Send stream ⟨"block", any⟩ = (stream2, none) →
      StreamEvents C (some ⟨["block"]⟩) stream
          [.blockChan (some ⟨C.ReceivedBlock, some (.receivedBlockData (some d))⟩)] =
        ⟨.running, stream2,
          [.subscribe .block, .subscribe .operation, .subscribe .state,
            .send ⟨"block", any⟩ true], []⟩) := by
  refine ⟨?_, ?_, ?_, ?_, ?_, ?_, ?_, ?_, ?_⟩
  · intro d v1Data item hm ht hh ha hs
    rw [handleBlockEvents_received C _ _ d v1Data item hm ht hh]
    exact streamData_send_ok C _ _ _ _ any ha hs
  · intro d hm ha hs
    rw [handleBlockOperationEvents_aggregated C _ _ d hm]
    exact streamData_send_ok C _ _ _ _ any ha hs
  · intro d hm ha hs
    rw [handleBlockOperationEvents_unaggregated C _ _ d hm]
    exact streamData_send_ok C _ _ _ _ any ha hs
  · intro d hm ha hs
    rw [handleBlockOperationEvents_exit C _ _ d hm]
    exact streamData_send_ok C _ _ _ _ any ha hs
  · intro head hm ha hs
    rw [handleStateEvents_head C _ _ head hm]
    exact streamData_send_ok C _ _ _ _ any ha hs
  · intro fc hm ha hs
    rw [handleStateEvents_finalized C _ _ fc hm]
    exact streamData_send_ok C _ _ _ _ any ha hs
  · intro reorg hm ha hs
    rw [handleStateEvents_reorg C _ _ reorg hm]
    exact streamData_send_ok C _ _ _ _ any ha hs
  · intro head ha hs
    have hk := loop_single_written C (topicSet ["head"]) stream stream2
      (.stateChan (some ⟨C.NewHead, some (.eventHead head)⟩)) ⟨"head", any⟩
      (by
        show handleStateEvents C stream _ _ = _
        rw [handleStateEvents_head C _ _ head (by decide)]
        exact streamData_send_ok C _ _ _ _ any ha hs)
    rw [StreamEvents_valid C ["head"] _ _ (by simp) (by simp; decide),
      subscribed_of_running C _ _ _ (by rw [hk]), hk]
    rfl
  · intro d v1Data item ht hh ha hs
    have hk := loop_single_written C (topicSet ["block"]) stream stream2
      (.blockChan (some ⟨C.ReceivedBlock, some (.receivedBlockData (some d))⟩)) ⟨"block", any⟩
      (by
        show handleBlockEvents C stream _ _ = _
        rw [handleBlockEvents_received C _ _ d v1Data item (by decide) ht hh]
        exact streamData_send_ok C _ _ _ _ any ha hs)
    rw [StreamEvents_valid C ["block"] _ _ (by simp) (by simp; decide),
      subscribed_of_running C _ _ _ (by rw [hk]), hk]
    rfl

/-- Witness of C2 (scenario A): request head and a NewHead event with slot 10 and
root 0xAA give the single envelope named head that carries the serialization of
that payload. -/
theorem C2_matching_event_one_envelope_witness :
    StreamEvents demo (some ⟨["head"]⟩) (0 : Nat)
        [.stateChan (some ⟨demo.NewHead, some (.eventHead ((10, [0xAA]) : Nat × List Nat))⟩)] =
      ⟨.running, (1 : Nat),
        [.subscribe .block, .subscribe .operation, .subscribe .state,
          .send ⟨"head", ([4, 10, 0xAA] : List Nat)⟩ true], []⟩ :=
  (C2_matching_event_one_envelope demo TopicMap.empty (0 : Nat) (1 : Nat)
    ([4, 10, 0xAA] : List Nat)).2.2.2.2.2.2.2.1 ((10, [0xAA]) : Nat × List Nat) rfl rfl

/-- C3: an event whose kind is none of the kinds its classifier knows, or whose
kind maps to a topic that is absent from the requested topics, makes the
classifier return nil without touching the stream, whatever the payload is; the
loop then goes on with the next ready item exactly as if the event had not been
there. The last part is scenario C run through `StreamEvents`: with the request
attestation, an ExitReceived event of the operation feed produces nothing. -/
theorem C3_unmatched_event_no_envelope (C : Collab) (requestedTopics : TopicMap)
    (stream : C.Stream) (event : Event C.toSchema) (rest : List (Ready C.toSchema)) :
    ((event.Typ ≠ C.ReceivedBlock ∨
        (event.Typ = C.ReceivedBlock ∧ requestedTopics.has "block" = false)) →
      handleBlockEvents C stream requestedTopics (some event) = ⟨.nil, stream, []⟩ ∧
      StreamEvents.loop C requestedTopics stream (.blockChan (some event) :: rest) =
        StreamEvents.loop C requestedTopics stream rest) ∧
    (((event.Typ ≠ C.AggregatedAttReceived ∧ event.Typ ≠ C.UnaggregatedAttReceived ∧
          event.Typ ≠ C.ExitReceived) ∨
        ((event.Typ = C.AggregatedAttReceived ∨ event.Typ = C.UnaggregatedAttReceived) ∧
          requestedTopics.has "attestation" = false) ∨
        (event.Typ = C.ExitReceived ∧ requestedTopics.has "voluntary_exit" = false)) →
      handleBlockOperationEvents C stream requestedTopics (some event) = ⟨.nil, stream, []⟩ ∧
      StreamEvents.loop C requestedTopics stream (.opsChan (some event) :: rest) =
        StreamEvents.loop C requestedTopics stream rest) ∧
    (((event.Typ ≠ C.NewHead ∧ event.Typ ≠ C.FinalizedCheckpoint ∧ event.Typ ≠ C.Reorg) ∨
        (event.Typ = C.NewHead ∧ requestedTopics.has "head" = false) ∨
        (event.Typ = C.FinalizedCheckpoint ∧
          requestedTopics.has "finalized_checkpoint" = false) ∨
        (event.Typ = C.Reorg ∧ requestedTopics.has "chain_reorg" = false)) →
      handleStateEvents C stream requestedTopics (some event) = ⟨.nil, stream, []⟩ ∧
      StreamEvents.loop C requestedTopics stream (.stateChan (some event) :: rest) =
        StreamEvents.loop C requestedTopics stream rest) ∧
    (event.Typ = C.ExitReceived →
      StreamEvents C (some ⟨["attestation"]⟩) stream [.opsChan (some event)] =
        ⟨.running, stream, [.subscribe .block, .subscribe .operation, .subscribe .state], []⟩) := by
  have hops : ((event.Typ ≠ C.AggregatedAttReceived ∧ event.Typ ≠ C.UnaggregatedAttReceived ∧
          event.Typ ≠ C.ExitReceived) ∨
        ((event.Typ = C.AggregatedAttReceived ∨ event.Typ = C.UnaggregatedAttReceived) ∧
          requestedTopics.has attestationTopic = false) ∨
        (event.Typ = C.ExitReceived ∧ requestedTopics.has voluntaryExitTopic = false)) →
      handleBlockOperationEvents C stream requestedTopics (some event) = ⟨.nil, stream, []⟩ := by
    have d1 : C.UnaggregatedAttReceived ≠ C.AggregatedAttReceived := C.opsDistinct.1.symm
    have d2 : C.ExitReceived ≠ C.AggregatedAttReceived := C.opsDistinct.2.1.symm
    have d3 : C.ExitReceived ≠ C.UnaggregatedAttReceived := C.opsDistinct.2.2.symm
    rintro (⟨h1, h2, h3⟩ | ⟨h1 | h1, h2⟩ | ⟨h1, h2⟩)
    · simp [handleBlockOperationEvents, h1, h2, h3]
    · simp [handleBlockOperationEvents, h1, h2]
    · simp [handleBlockOperationEvents, h1, h2, d1]
    · simp [handleBlockOperationEvents, h1, h2, d2, d3]
  refine ⟨?_, ?_, ?_, ?_⟩
  · intro h
    have hh : handleBlockEvents C stream requestedTopics (some event) = ⟨.nil, stream, []⟩ := by
      rcases h with h | ⟨h1, h2⟩
      · simp [handleBlockEvents, h]
      · have h2b : requestedTopics.has blockTopic = false := h2
        simp [handleBlockEvents, h1, h2b]
    exact ⟨hh, loop_blockChan_skip C _ _ _ rest hh⟩
  · intro h
    exact ⟨hops h, loop_opsChan_skip C _ _ _ rest (hops h)⟩
  · intro h
    have d1 : C.FinalizedCheckpoint ≠ C.NewHead := C.stateDistinct.1.symm
    have d2 : C.Reorg ≠ C.NewHead := C.stateDistinct.2.1.symm
    have d3 : C.Reorg ≠ C.FinalizedCheckpoint := C.stateDistinct.2.2.symm
    have hh : handleStateEvents C stream requestedTopics (some event) = ⟨.nil, stream, []⟩ := by
      rcases h with ⟨h1, h2, h3⟩ | ⟨h1, h2⟩ | ⟨h1, h2⟩ | ⟨h1, h2⟩
      · simp [handleStateEvents, h1, h2, h3]
      · have h2b : requestedTopics.has headTopic = false := h2
        simp [handleStateEvents, h1, h2b]
      · have h2b : requestedTopics.has finalizedCheckpointTopic = false := h2
        simp [handleStateEvents, h1, h2b, d1]
      · have h2b : requestedTopics.has chainReorgTopic = false := h2
        simp [handleStateEvents, h1, h2b, d2, d3]
    exact ⟨hh, loop_stateChan_skip C _ _ _ rest hh⟩
  · intro h
    have d2 : C.ExitReceived ≠ C.AggregatedAttReceived := C.opsDistinct.2.1.symm
    have d3 : C.ExitReceived ≠ C.UnaggregatedAttReceived := C.opsDistinct.2.2.symm
    have hm : (topicSet ["attestation"]).has voluntaryExitTopic = false := by decide
    have hh : handleBlockOperationEvents C stream (topicSet ["attestation"]) (some event) =
        ⟨.nil, stream, []⟩ := by
      simp [handleBlockOperationEvents, h, hm, d2, d3]
    have hk := loop_opsChan_skip C (topicSet ["attestation"]) stream (some event) [] hh
    rw [StreamEvents_valid C ["attestation"] _ _ (by simp) (by simp; decide),
      subscribed_of_running C _ _ _ (by rw [hk]; rfl), hk]
    rfl

/-- Witness of C3 (scenario C): with the request attestation, an ExitReceived
event of the operation feed produces no envelope and the call keeps running. -/
theorem C3_unmatched_event_no_envelope_witness :
    StreamEvents demo (some ⟨["attestation"]⟩) (0 : Nat)
        [.opsChan (some ⟨3, some (.exitReceivedData (some ⟨(9 : Nat)⟩))⟩)] =
      ⟨.running, (0 : Nat), [.subscribe .block, .subscribe .operation, .subscribe .state], []⟩ :=
  (C3_unmatched_event_no_envelope demo TopicMap.empty (0 : Nat)
    ⟨3, some (.exitReceivedData (some ⟨(9 : Nat)⟩))⟩ []).2.2.2 rfl

/-- C9: an event whose kind maps to a requested topic but whose payload is absent
or has another dynamic type than the one the kind promises makes the classifier
return nil without touching the stream, and the loop goes on with the next ready
item. -/
theorem C9_wrong_payload_dropped (C : Collab) (requestedTopics : TopicMap) (stream : C.Stream)
    (data : Option (Payload C.toSchema)) (rest : List (Ready C.toSchema)) :
    (requestedTopics.has "block" = true → (∀ p, data ≠ some (.receivedBlockData p)) →
      handleBlockEvents C stream requestedTopics (some ⟨C.ReceivedBlock, data⟩) =
        ⟨.nil, stream, []⟩ ∧
      StreamEvents.loop C requestedTopics stream
          (.blockChan (some ⟨C.ReceivedBlock, data⟩) :: rest) =
        StreamEvents.loop C requestedTopics stream rest) ∧
    (requestedTopics.has "attestation" = true →
      (∀ p, data ≠ some (.aggregatedAttReceivedData p)) →
      handleBlockOperationEvents C stream requestedTopics (some ⟨C.AggregatedAttReceived, data⟩) =
        ⟨.nil, stream, []⟩ ∧
      StreamEvents.loop C requestedTopics stream
          (.opsChan (some ⟨C.AggregatedAttReceived, data⟩) :: rest) =
        StreamEvents.loop C requestedTopics stream rest) ∧
    (requestedTopics.has "attestation" = true →
      (∀ p, data ≠ some (.unAggregatedAttReceivedData p)) →
      handleBlockOperationEvents C stream requestedTopics
          (some ⟨C.UnaggregatedAttReceived, data⟩) = ⟨.nil, stream, []⟩ ∧
      StreamEvents.loop C requestedTopics stream
          (.opsChan (some ⟨C.UnaggregatedAttReceived, data⟩) :: rest) =
        StreamEvents.loop C requestedTopics stream rest) ∧
    (requestedTopics.has "voluntary_exit" = true → (∀ p, data ≠ some (.exitReceivedData p)) →
      handleBlockOperationEvents C stream requestedTopics (some ⟨C.ExitReceived, data⟩) =
        ⟨.nil, stream, []⟩ ∧
      StreamEvents.loop C requestedTopics stream
          (.opsChan (some ⟨C.ExitReceived, data⟩) :: rest) =
        StreamEvents.loop C requestedTopics stream rest) ∧
    (requestedTopics.has "head" = true → (∀ p, data ≠ some (.eventHead p)) →
      handleStateEvents C stream requestedTopics (some ⟨C.NewHead, data⟩) = ⟨.nil, stream, []⟩ ∧
      StreamEvents.loop C requestedTopics stream (.stateChan (some ⟨C.NewHead, data⟩) :: rest) =
        StreamEvents.loop C requestedTopics stream rest) ∧
    (requestedTopics.has "finalized_checkpoint" = true →
      (∀ p, data ≠ some (.eventFinalizedCheckpoint p)) →
      handleStateEvents C stream requestedTopics (some ⟨C.FinalizedCheckpoint, data⟩) =
        ⟨.nil, stream, []⟩ ∧
      StreamEvents.loop C requestedTopics stream
          (.stateChan (some ⟨C.FinalizedCheckpoint, data⟩) :: rest) =
        StreamEvents.loop C requestedTopics stream rest) ∧
    (requestedTopics.has "chain_reorg" = true → (∀ p, data ≠ some (.eventChainReorg p)) →
      handleStateEvents C stream requestedTopics (some ⟨C.Reorg, data⟩) = ⟨.nil, stream, []⟩ ∧
      StreamEvents.loop C requestedTopics stream (.stateChan (some ⟨C.Reorg, data⟩) :: rest) =
        StreamEvents.loop C requestedTopics stream rest) := by
  have o1 : C.UnaggregatedAttReceived ≠ C.AggregatedAttReceived := C.opsDistinct.1.symm
  have o2 : C.ExitReceived ≠ C.AggregatedAttReceived := C.opsDistinct.2.1.symm
  have o3 : C.ExitReceived ≠ C.UnaggregatedAttReceived := C.opsDistinct.2.2.symm
  have d1 : C.FinalizedCheckpoint ≠ C.NewHead := C.stateDistinct.1.symm
  have d2 : C.Reorg ≠ C.NewHead := C.stateDistinct.2.1.symm
  have d3 : C.Reorg ≠ C.FinalizedCheckpoint := C.stateDistinct.2.2.symm
  refine ⟨?_, ?_, ?_, ?_, ?_, ?_, ?_⟩
  · intro hm hd
    have hm2 : requestedTopics.has blockTopic = true := hm
    have hh : handleBlockEvents C stream requestedTopics (some ⟨C.ReceivedBlock, data⟩) =
        ⟨.nil, stream, []⟩ := by
      simp only [handleBlockEvents, hm2, if_true, Bool.not_true, Bool.false_eq_true, if_false]
    exact ⟨hh, loop_blockChan_skip C _ _ _ rest hh⟩
  · intro hm hd
    have hm2 : requestedTopics.has attestationTopic = true := hm
    have hh : handleBlockOperationEvents C stream requestedTopics
        (some ⟨C.AggregatedAttReceived, data⟩) = ⟨.nil, stream, []⟩ := by
      simp only [handleBlockOperationEvents, hm2, if_true, Bool.not_true, Bool.false_eq_true,
        if_false]
    exact ⟨hh, loop_opsChan_skip C _ _ _ rest hh⟩
  · intro hm hd
    have hm2 : requestedTopics.has attestationTopic = true := hm
    have hh : handleBlockOperationEvents C stream requestedTopics
        (some ⟨C.UnaggregatedAttReceived, data⟩) = ⟨.nil, stream, []⟩ := by
      simp only [handleBlockOperationEvents, hm2, o1, if_true, Bool.not_true, Bool.false_eq_true,
        if_false]
    exact ⟨hh, loop_opsChan_skip C _ _ _ rest hh⟩
  · intro hm hd
    have hm2 : requestedTopics.has voluntaryExitTopic = true := hm
    have hh : handleBlockOperationEvents C stream requestedTopics
        (some ⟨C.ExitReceived, data⟩) = ⟨.nil, stream, []⟩ := by
      simp only [handleBlockOperationEvents, hm2, o2, o3, if_true, Bool.not_true,
        Bool.false_eq_true, if_false]
    exact ⟨hh, loop_opsChan_skip C _ _ _ rest hh⟩
  · intro hm hd
    have hm2 : requestedTopics.has headTopic = true := hm
    have hh : handleStateEvents C stream requestedTopics (some ⟨C.NewHead, data⟩) =
        ⟨.nil, stream, []⟩ := by
      simp only [handleStateEvents, hm2, if_true, Bool.not_true, Bool.false_eq_true, if_false]
    exact ⟨hh, loop_stateChan_skip C _ _ _ rest hh⟩
  · intro hm hd
    have hm2 : requestedTopics.has finalizedCheckpointTopic = true := hm
    have hh : handleStateEvents C stream requestedTopics (some ⟨C.FinalizedCheckpoint, data⟩) =
        ⟨.nil, stream, []⟩ := by
      simp only [handleStateEvents, hm2, d1, if_true, Bool.not_true, Bool.false_eq_true, if_false]
    exact ⟨hh, loop_stateChan_skip C _ _ _ rest hh⟩
  · intro hm hd
    have hm2 : requestedTopics.has chainReorgTopic = true := hm
    have hh : handleStateEvents C stream requestedTopics (some ⟨C.Reorg, data⟩) =
        ⟨.nil, stream, []⟩ := by
      simp only [handleStateEvents, hm2, d2, d3, if_true, Bool.not_true, Bool.false_eq_true,
        if_false]
    exact ⟨hh, loop_stateChan_skip C _ _ _ rest hh⟩

/-- Witness of C9: with the request head, a NewHead event without payload, or with
the payload of a finalized checkpoint, is dropped. -/
theorem C9_wrong_payload_dropped_witness :
    handleStateEvents demo (0 : Nat) (topicSet ["head"]) (some ⟨7, none⟩) =
        ⟨.nil, (0 : Nat), []⟩ ∧
    handleStateEvents demo (0 : Nat) (topicSet ["head"])
        (some ⟨7, some (.eventFinalizedCheckpoint (4 : Nat))⟩) = ⟨.nil, (0 : Nat), []⟩ :=
  ⟨((C9_wrong_payload_dropped demo (topicSet ["head"]) (0 : Nat) none []).2.2.2.2.1
      (by decide) (fun p h => by cases h)).1,
   ((C9_wrong_payload_dropped demo (topicSet ["head"]) (0 : Nat)
      (some (.eventFinalizedCheckpoint (4 : Nat))) []).2.2.2.2.1
      (by decide) (fun p h => by cases h)).1⟩

/-! ### Runs on a list of ready items that extends another -/

theorem afterHandler_panicked (C : Collab) (format : String) (o : Outcome C)
    (rest : List (Ready C.toSchema)) (next : C.Stream → CallOutcome C) (h : o.ret = .panicked) :
    StreamEvents.afterHandler C format o rest next = ⟨.panicked, o.stream, o.effects, rest⟩ := by
  simp [StreamEvents.afterHandler, h]

theorem afterHandler_append_ended (C : Collab) (format : String) (o : Outcome C)
    (rest post : List (Ready C.toSchema)) (next next2 : C.Stream → CallOutcome C)
    (hnext : ∀ st, (next st).result ≠ .running →
      next2 st = ⟨(next st).result, (next st).stream, (next st).effects,
        (next st).unconsumed ++ post⟩)
    (h : (StreamEvents.afterHandler C format o rest next).result ≠ .running) :
    StreamEvents.afterHandler C format o (rest ++ post) next2 =
      ⟨(StreamEvents.afterHandler C format o rest next).result,
        (StreamEvents.afterHandler C format o rest next).stream,
        (StreamEvents.afterHandler C format o rest next).effects,
        (StreamEvents.afterHandler C format o rest next).unconsumed ++ post⟩ := by
  cases hr : o.ret with
  | nil =>
    rw [afterHandler_nil C _ _ _ _ hr] at h ⊢
    rw [afterHandler_nil C _ _ _ _ hr, hnext _ h]
  | err e => rw [afterHandler_err C _ _ _ _ e hr, afterHandler_err C _ _ _ _ e hr]
  | panicked => rw [afterHandler_panicked C _ _ _ _ hr, afterHandler_panicked C _ _ _ _ hr]

theorem loop_append_ended (C : Collab) (m : TopicMap) :
    ∀ (pre : List (Ready C.toSchema)) (s : C.Stream) (post : List (Ready C.toSchema)),
      (StreamEvents.loop C m s pre).result ≠ .running →
      StreamEvents.loop C m s (pre ++ post) =
        ⟨(StreamEvents.loop C m s pre).result, (StreamEvents.loop C m s pre).stream,
          (StreamEvents.loop C m s pre).effects,
          (StreamEvents.loop C m s pre).unconsumed ++ post⟩ := by
  intro pre
  induction pre with
  | nil => intro s post h; exact absurd rfl h
  | cons r rest ih =>
    intro s post h
    cases r with
    | blockChan event =>
      rw [StreamEvents.loop] at h
      rw [List.cons_append, StreamEvents.loop, StreamEvents.loop]
      exact afterHandler_append_ended C _ _ rest post _ _ (fun st hst => ih st post hst) h
    | opsChan event =>
      rw [StreamEvents.loop] at h
      rw [List.cons_append, StreamEvents.loop, StreamEvents.loop]
      exact afterHandler_append_ended C _ _ rest post _ _ (fun st hst => ih st post hst) h
    | stateChan event =>
      rw [StreamEvents.loop] at h
      rw [List.cons_append, StreamEvents.loop, StreamEvents.loop]
      exact afterHandler_append_ended C _ _ rest post _ _ (fun st hst => ih st post hst) h
    | ctxDone => simp [StreamEvents.loop]
    | streamCtxDone => simp [StreamEvents.loop]

theorem written_append {S : Schema} (l1 l2 : List (Effect S)) :
    written (l1 ++ l2) = written l1 ++ written l2 := by
  simp [written, List.filterMap_append]

theorem written_subscribed (C : Collab) (m : TopicMap) (s : C.Stream)
    (ready : List (Ready C.toSchema)) :
    written (StreamEvents.subscribed C m s ready).effects =
      written (StreamEvents.loop C m s ready).effects := by
  by_cases hr : (StreamEvents.loop C m s ready).result = .running
  · rw [subscribed_of_running C _ s ready hr]
    simp [written, List.filterMap_append, Effect.wrote]
  · rw [subscribed_of_ended C _ s ready hr]
    simp [written, List.filterMap_append, Effect.wrote, StreamEvents.deferred]

/-- A valid call on `pre ++ tail`, when the loop is still running after `pre`:
the run on `pre`, then the loop on `tail` from the stream that `pre` left,
then the deferred calls if the loop has ended. -/
theorem StreamEvents_append (C : Collab) (topics : List String) (s : C.Stream)
    (pre tail : List (Ready C.toSchema))
    (hrun : (StreamEvents C (some ⟨topics⟩) s pre).result = .running) :
    StreamEvents C (some ⟨topics⟩) s (pre ++ tail) =
      ⟨(StreamEvents.loop C (topicSet topics) (StreamEvents C (some ⟨topics⟩) s pre).stream
          tail).result,
        (StreamEvents.loop C (topicSet topics) (StreamEvents C (some ⟨topics⟩) s pre).stream
          tail).stream,
        (StreamEvents C (some ⟨topics⟩) s pre).effects ++
          (StreamEvents.loop C (topicSet topics) (StreamEvents C (some ⟨topics⟩) s pre).stream
            tail).effects ++
          (match (StreamEvents.loop C (topicSet topics)
              (StreamEvents C (some ⟨topics⟩) s pre).stream tail).result with
            | .running => []
            | _ => StreamEvents.deferred C.toSchema),
        (StreamEvents.loop C (topicSet topics) (StreamEvents C (some ⟨topics⟩) s pre).stream
          tail).unconsumed⟩ := by
  obtain ⟨topics2, heq, hne, hall⟩ := StreamEvents_running C _ s pre hrun
  simp only [Option.some.injEq, StreamEventsRequest.mk.injEq] at heq
  subst heq
  rw [StreamEvents_valid C topics s pre hne hall, subscribed_result] at hrun
  rw [StreamEvents_valid C topics s _ hne hall, StreamEvents_valid C topics s _ hne hall,
    subscribed_of_running C _ s pre hrun]
  have happ := loop_append C (topicSet topics) pre s tail hrun
  by_cases hr : (StreamEvents.loop C (topicSet topics)
      (StreamEvents.loop C (topicSet topics) s pre).stream tail).result = .running
  · have hr2 : (StreamEvents.loop C (topicSet topics) s (pre ++ tail)).result = .running := by
      rw [happ]; exact hr
    rw [subscribed_of_running C _ s _ hr2, happ]
    simp only [hr, List.append_nil, List.append_assoc]
    rw [← loop_running_unconsumed C _ tail _ hr, ← hr]
  · have hr2 : (StreamEvents.loop C (topicSet topics) s (pre ++ tail)).result ≠ .running := by
      rw [happ]; exact hr
    rw [subscribed_of_ended C _ s _ hr2, happ]
    simp only [List.append_assoc]

theorem Outcome.Shaped.err_written {C : Collab} {m : TopicMap} {o : Outcome C} (h : o.Shaped m)
    (e : GoError C.Err) (he : o.ret = .err e) : written o.effects = [] := by
  rcases h with h | ⟨env, _, hr, _⟩ | ⟨env, e2, h, _⟩
  · rw [h]; rfl
  · rw [he] at hr; cases hr
  · rw [h]; rfl

theorem StreamEvents_append_error (C : Collab) (topics : List String) (s : C.Stream)
    (pre post : List (Ready C.toSchema)) (r : Ready C.toSchema) (format : String)
    (o : Outcome C) (e : GoError C.Err)
    (hrun : (StreamEvents C (some ⟨topics⟩) s pre).result = .running)
    (hloop : StreamEvents.loop C (topicSet topics) (StreamEvents C (some ⟨topics⟩) s pre).stream
        (r :: post) = StreamEvents.afterHandler C format o post
          (fun st => StreamEvents.loop C (topicSet topics) st post))
    (he : o.ret = .err e) :
    StreamEvents C (some ⟨topics⟩) s (pre ++ r :: post) =
      ⟨.returned (.statusE .Internal format e), o.stream,
        (StreamEvents C (some ⟨topics⟩) s pre).effects ++ o.effects ++
          [.unsubscribe .state, .unsubscribe .operation, .unsubscribe .block], post⟩ := by
  rw [StreamEvents_append C topics s pre (r :: post) hrun, hloop, afterHandler_err C _ _ _ _ e he]
  rfl

/-- C5: a failure while an event is handled ends the call with an Internal
status. The causes: the translation of a received block or the hash of its
header fails (the classifier returns the error before any `Send`), the
serialization in `streamData` fails (no `Send`), or `Send` fails (the failed
`Send` is the only effect); the seven cases in which a classifier hands a message
to `streamData` return what `streamData` returns. The propagation: when the
loop, still running after `pre`, takes an event whose classifier returns an
error, `StreamEvents` returns the Internal status that wraps it, the classifier is
not called again, the ready items after the event stay unconsumed, the failing
classifier wrote no envelope, and after its effects only the three deferred
unsubscriptions follow. -/
theorem C5_failure_is_fatal (C : Collab) (topics : List String) (s : C.Stream)
    (pre post : List (Ready C.toSchema))
    (hrun : (StreamEvents C (some ⟨topics⟩) s pre).result = .running) :
    (∀ (m : TopicMap) (st : C.Stream) (d : ReceivedBlockData C.toSchema) (e : C.Err),
      m.has "block" = true → C.BlockIfaceToV1BlockHeader d.SignedBlock = .error e →
      handleBlockEvents C st m (some ⟨C.ReceivedBlock, some (.receivedBlockData (some d))⟩) =
        ⟨.err (.ext e), st, []⟩) ∧
    (∀ (m : TopicMap) (st : C.Stream) (d : ReceivedBlockData C.toSchema)
        (v1Data : C.SignedBeaconBlockHeader) (e : C.Err),
      m.has "block" = true → C.BlockIfaceToV1BlockHeader d.SignedBlock = .ok v1Data →
      C.HashTreeRoot v1Data = .error e →
      handleBlockEvents C st m (some ⟨C.ReceivedBlock, some (.receivedBlockData (some d))⟩) =
        ⟨.err (.statusE .Internal "could not hash tree root block %v" (.ext e)), st, []⟩) ∧
    (∀ (st : C.Stream) (name : String) (data : ProtoMessage C.toSchema) (e : C.Err),
      C.anypbNew data = .error e → streamData C st name data = ⟨.err (.ext e), st, []⟩) ∧
    (∀ (st st2 : C.Stream) (name : String) (data : ProtoMessage C.toSchema) (any : C.Any)
        (e : C.Err),
      C.anypbNew data = .ok any → C.Send st ⟨name, any⟩ = (st2, some e) →
      streamData C st name data = ⟨.err (.ext e), st2, [.send ⟨name, any⟩ false]⟩) ∧
    (∀ (m : TopicMap) (st : C.Stream),
      (∀ (d : ReceivedBlockData C.toSchema) (v1Data : C.SignedBeaconBlockHeader)
          (item : { l : List Nat // l.length = 32 }),
        m.has "block" = true → C.BlockIfaceToV1BlockHeader d.SignedBlock = .ok v1Data →
        C.HashTreeRoot v1Data = .ok item →
        handleBlockEvents C st m (some ⟨C.ReceivedBlock, some (.receivedBlockData (some d))⟩) =
          streamData C st "block" (.eventBlock ⟨C.MessageSlot v1Data, item.val⟩)) ∧
      (∀ d : AggregatedAttReceivedData C.toSchema, m.has "attestation" = true →
        handleBlockOperationEvents C st m
            (some ⟨C.AggregatedAttReceived, some (.aggregatedAttReceivedData (some d))⟩) =
          streamData C st "attestation"
            (.aggregateAttestationAndProof (C.V1Alpha1AggregateAttAndProofToV1 d.Attestation))) ∧
      (∀ d : UnAggregatedAttReceivedData C.toSchema, m.has "attestation" = true →
        handleBlockOperationEvents C st m
            (some ⟨C.UnaggregatedAttReceived, some (.unAggregatedAttReceivedData (some d))⟩) =
          streamData C st "attestation" (.attestation (C.V1Alpha1AttestationToV1 d.Attestation))) ∧
      (∀ d : ExitReceivedData C.toSchema, m.has "voluntary_exit" = true →
        handleBlockOperationEvents C st m
            (some ⟨C.ExitReceived, some (.exitReceivedData (some d))⟩) =
          streamData C st "voluntary_exit" (.signedVoluntaryExit (C.V1Alpha1ExitToV1 d.Exit))) ∧
      (∀ head : C.EventHead, m.has "head" = true →
        handleStateEvents C st m (some ⟨C.NewHead, some (.eventHead head)⟩) =
          streamData C st "head" (.eventHead head)) ∧
      (∀ fc : C.EventFinalizedCheckpoint, m.has "finalized_checkpoint" = true →
        handleStateEvents C st m (some ⟨C.FinalizedCheckpoint, some (.eventFinalizedCheckpoint fc)⟩) =
          streamData C st "finalized_checkpoint" (.eventFinalizedCheckpoint fc)) ∧
      (∀ reorg : C.EventChainReorg, m.has "chain_reorg" = true →
        handleStateEvents C st m (some ⟨C.Reorg, some (.eventChainReorg reorg)⟩) =
          streamData C st "chain_reorg" (.eventChainReorg reorg))) ∧
    (∀ (event : Option (Event C.toSchema)) (e : GoError C.Err),
      (handleBlockEvents C (StreamEvents C (some ⟨topics⟩) s pre).stream (topicSet topics)
        event).ret = .err e →
      StreamEvents C (some ⟨topics⟩) s (pre ++ .blockChan event :: post) =
        ⟨.returned (.statusE .Internal "could not handle block event: %v" e),
          (handleBlockEvents C (StreamEvents C (some ⟨topics⟩) s pre).stream (topicSet topics)
            event).stream,
          (StreamEvents C (some ⟨topics⟩) s pre).effects ++
            (handleBlockEvents C (StreamEvents C (some ⟨topics⟩) s pre).stream (topicSet topics)
              event).effects ++
            [.unsubscribe .state, .unsubscribe .operation, .unsubscribe .block], post⟩ ∧
      written (handleBlockEvents C (StreamEvents C (some ⟨topics⟩) s pre).stream
        (topicSet topics) event).effects = []) ∧
    (∀ (event : Option (Event C.toSchema)) (e : GoError C.Err),
      (handleBlockOperationEvents C (StreamEvents C (some ⟨topics⟩) s pre).stream
        (topicSet topics) event).ret = .err e →
      StreamEvents C (some ⟨topics⟩) s (pre ++ .opsChan event :: post) =
        ⟨.returned (.statusE .Internal "could not handle block operations event: %v" e),
          (handleBlockOperationEvents C (StreamEvents C (some ⟨topics⟩) s pre).stream
            (topicSet topics) event).stream,
          (StreamEvents C (some ⟨topics⟩) s pre).effects ++
            (handleBlockOperationEvents C (StreamEvents C (some ⟨topics⟩) s pre).stream
              (topicSet topics) event).effects ++
            [.unsubscribe .state, .unsubscribe .operation, .unsubscribe .block], post⟩ ∧
      written (handleBlockOperationEvents C (StreamEvents C (some ⟨topics⟩) s pre).stream
        (topicSet topics) event).effects = []) ∧
    (∀ (event : Option (Event C.toSchema)) (e : GoError C.Err),
      (handleStateEvents C (StreamEvents C (some ⟨topics⟩) s pre).stream (topicSet topics)
        event).ret = .err e →
      StreamEvents C (some ⟨topics⟩) s (pre ++ .stateChan event :: post) =
        ⟨.returned (.statusE .Internal "could not handle state event: %v" e),
          (handleStateEvents C (StreamEvents C (some ⟨topics⟩) s pre).stream (topicSet topics)
            event).stream,
          (StreamEvents C (some ⟨topics⟩) s pre).effects ++
            (handleStateEvents C (StreamEvents C (some ⟨topics⟩) s pre).stream (topicSet topics)
              event).effects ++
            [.unsubscribe .state, .unsubscribe .operation, .unsubscribe .block], post⟩ ∧
      written (handleStateEvents C (StreamEvents C (some ⟨topics⟩) s pre).stream
        (topicSet topics) event).effects = []) := by
  refine ⟨?_, ?_, ?_, ?_, ?_, ?_, ?_, ?_⟩
  · intro m st d e hm ht
    have hm2 : m.has blockTopic = true := hm
    simp [handleBlockEvents, hm2, ht]
  · intro m st d v1Data e hm ht hh
    have hm2 : m.has blockTopic = true := hm
    simp [handleBlockEvents, hm2, ht, hh]
  · intro st name data e h
    exact streamData_anypb_error C st name data e h
  · intro st st2 name data any e h hs
    exact streamData_send_error C st st2 name data any e h hs
  · intro m st
    exact ⟨fun d v1Data item hm ht hh => handleBlockEvents_received C m st d v1Data item hm ht hh,
      fun d hm => handleBlockOperationEvents_aggregated C m st d hm,
      fun d hm => handleBlockOperationEvents_unaggregated C m st d hm,
      fun d hm => handleBlockOperationEvents_exit C m st d hm,
      fun head hm => handleStateEvents_head C m st head hm,
      fun fc hm => handleStateEvents_finalized C m st fc hm,
      fun reorg hm => handleStateEvents_reorg C m st reorg hm⟩
  · intro event e he
    exact ⟨StreamEvents_append_error C topics s pre post _ _ _ e hrun
        (by rw [StreamEvents.loop]) he,
      (handleBlockEvents_shaped C _ _ event).err_written e he⟩
  · intro event e he
    exact ⟨StreamEvents_append_error C topics s pre post _ _ _ e hrun
        (by rw [StreamEvents.loop]) he,
      (handleBlockOperationEvents_shaped C _ _ event).err_written e he⟩
  · intro event e he
    exact ⟨StreamEvents_append_error C topics s pre post _ _ _ e hrun
        (by rw [StreamEvents.loop]) he,
      (handleStateEvents_shaped C _ _ event).err_written e he⟩

/-- Witness of C5: request block; after a head event that is not requested, a
received block that cannot be translated ends the call with an Internal status,
and the block event after it is not consumed. -/
theorem C5_failure_is_fatal_witness :
    StreamEvents demo (some ⟨["block"]⟩) (0 : Nat)
        ([.stateChan (some ⟨7, some (.eventHead ((10, [0xAA]) : Nat × List Nat))⟩)] ++
          .blockChan (some ⟨1, some (.receivedBlockData (some ⟨((5, 0) : Nat × Nat)⟩))⟩) ::
            [.blockChan (some ⟨1, some (.receivedBlockData (some ⟨((6, 0xBB) : Nat × Nat)⟩))⟩)]) =
      ⟨.returned (.statusE .Internal "could not handle block event: %v" (.ext "nil block body")),
        (0 : Nat),
        [.subscribe .block, .subscribe .operation, .subscribe .state,
          .unsubscribe .state, .unsubscribe .operation, .unsubscribe .block],
        [.blockChan (some ⟨1, some (.receivedBlockData (some ⟨((6, 0xBB) : Nat × Nat)⟩))⟩)]⟩ :=
  ((C5_failure_is_fatal demo ["block"] (0 : Nat)
    [.stateChan (some ⟨7, some (.eventHead ((10, [0xAA]) : Nat × List Nat))⟩)]
    [.blockChan (some ⟨1, some (.receivedBlockData (some ⟨((6, 0xBB) : Nat × Nat)⟩))⟩)]
    rfl).2.2.2.2.2.1
      (some ⟨1, some (.receivedBlockData (some ⟨((5, 0) : Nat × Nat)⟩))⟩)
      (.ext "nil block body") rfl).1

theorem Outcome.Shaped.written_le {C : Collab} {m : TopicMap} {o : Outcome C} (h : o.Shaped m) :
    (written o.effects).length ≤ 1 := by
  rcases h with h | ⟨env, h, _⟩ | ⟨env, e, h, _⟩ <;> rw [h] <;> simp [written, Effect.wrote]

theorem afterHandler_single (C : Collab) (m : TopicMap) (format : String) (o : Outcome C) :
    (StreamEvents.afterHandler C format o []
      (fun st => StreamEvents.loop C m st [])).effects = o.effects := by
  cases hr : o.ret with
  | nil => rw [afterHandler_nil C _ _ _ _ hr]; simp [StreamEvents.loop]
  | err e => rw [afterHandler_err C _ _ _ _ e hr]
  | panicked => rw [afterHandler_panicked C _ _ _ _ hr]

theorem loop_single_written_le (C : Collab) (m : TopicMap) (st : C.Stream)
    (r : Ready C.toSchema) : (written (StreamEvents.loop C m st [r]).effects).length ≤ 1 := by
  cases r with
  | blockChan event =>
    rw [StreamEvents.loop, afterHandler_single]
    exact (handleBlockEvents_shaped C m st event).written_le
  | opsChan event =>
    rw [StreamEvents.loop, afterHandler_single]
    exact (handleBlockOperationEvents_shaped C m st event).written_le
  | stateChan event =>
    rw [StreamEvents.loop, afterHandler_single]
    exact (handleStateEvents_shaped C m st event).written_le
  | ctxDone => simp [StreamEvents.loop, written]
  | streamCtxDone => simp [StreamEvents.loop, written]

theorem written_StreamEvents_append (C : Collab) (topics : List String) (s : C.Stream)
    (pre post : List (Ready C.toSchema))
    (hrun : (StreamEvents C (some ⟨topics⟩) s pre).result = .running) :
    written (StreamEvents C (some ⟨topics⟩) s (pre ++ post)).effects =
      written (StreamEvents C (some ⟨topics⟩) s pre).effects ++
        written (StreamEvents.loop C (topicSet topics)
          (StreamEvents C (some ⟨topics⟩) s pre).stream post).effects := by
  rw [StreamEvents_append C topics s pre post hrun]
  simp only [written_append]
  have hlast : written (match (StreamEvents.loop C (topicSet topics)
      (StreamEvents C (some ⟨topics⟩) s pre).stream post).result with
      | .running => []
      | _ => StreamEvents.deferred C.toSchema) = [] := by
    split <;> rfl
  rw [hlast, List.append_nil]

theorem written_StreamEvents_extends (C : Collab) (req : Option StreamEventsRequest)
    (s : C.Stream) (pre post : List (Ready C.toSchema)) :
    ∃ w, written (StreamEvents C req s (pre ++ post)).effects =
      written (StreamEvents C req s pre).effects ++ w := by
  rcases request_valid_or_invalid req with ⟨topics, rfl, hne, hall⟩ | hinv
  · by_cases hrun : (StreamEvents C (some ⟨topics⟩) s pre).result = .running
    · exact ⟨_, written_StreamEvents_append C topics s pre post hrun⟩
    · refine ⟨[], ?_⟩
      rw [StreamEvents_valid C topics s pre hne hall, subscribed_result] at hrun
      rw [StreamEvents_valid C topics s _ hne hall, StreamEvents_valid C topics s _ hne hall,
        written_subscribed, written_subscribed, loop_append_ended C _ pre s post hrun,
        List.append_nil]
  · obtain ⟨e1, h1, _⟩ := StreamEvents_invalid C req s (pre ++ post) hinv
    obtain ⟨e2, h2, _⟩ := StreamEvents_invalid C req s pre hinv
    exact ⟨[], by rw [h1, h2]; rfl⟩

/-- C8: the envelopes are written in the order in which the loop takes the
events. When the loop is still running after the ready items `pre`, what a run
on `pre ++ post` writes is what the run on `pre` writes, followed by what the
loop writes for `post` from the stream that `pre` left; in every case a run on a
longer list of ready items only extends what the run on the shorter list wrote;
one ready item adds at most one envelope; hence, if the item `r1` comes before
the item `r2` and the runs that end with them add the envelopes `env1` and `env2`,
then `env1` is written at the place its run put it and `env2` after it. -/
theorem C8_order_preserved (C : Collab) (topics : List String) (s : C.Stream) :
    (∀ pre post : List (Ready C.toSchema),
      (StreamEvents C (some ⟨topics⟩) s pre).result = .running →
      written (StreamEvents C (some ⟨topics⟩) s (pre ++ post)).effects =
        written (StreamEvents C (some ⟨topics⟩) s pre).effects ++
          written (StreamEvents.loop C (topicSet topics)
            (StreamEvents C (some ⟨topics⟩) s pre).stream post).effects) ∧
    (∀ pre post : List (Ready C.toSchema),
      ∃ w, written (StreamEvents C (some ⟨topics⟩) s (pre ++ post)).effects =
        written (StreamEvents C (some ⟨topics⟩) s pre).effects ++ w) ∧
    (∀ (st : C.Stream) (r : Ready C.toSchema),
      (written (StreamEvents.loop C (topicSet topics) st [r]).effects).length ≤ 1) ∧
    (∀ (l1 l2 l3 : List (Ready C.toSchema)) (r1 r2 : Ready C.toSchema)
        (env1 env2 : EventSource C.toSchema),
      written (StreamEvents C (some ⟨topics⟩) s (l1 ++ [r1])).effects =
        written (StreamEvents C (some ⟨topics⟩) s l1).effects ++ [env1] →
      written (StreamEvents C (some ⟨topics⟩) s (l1 ++ r1 :: l2 ++ [r2])).effects =
        written (StreamEvents C (some ⟨topics⟩) s (l1 ++ r1 :: l2)).effects ++ [env2] →
      ∃ w2 w3, written (StreamEvents C (some ⟨topics⟩) s (l1 ++ r1 :: l2 ++ r2 :: l3)).effects =
        written (StreamEvents C (some ⟨topics⟩) s l1).effects ++ [env1] ++ w2 ++ [env2] ++ w3) := by
  refine ⟨fun pre post hrun => written_StreamEvents_append C topics s pre post hrun,
    fun pre post => written_StreamEvents_extends C _ s pre post,
    fun st r => loop_single_written_le C _ st r, ?_⟩
  intro l1 l2 l3 r1 r2 env1 env2 h1 h2
  obtain ⟨w3, hw3⟩ := written_StreamEvents_extends C (some ⟨topics⟩) s (l1 ++ r1 :: l2 ++ [r2]) l3
  obtain ⟨w2, hw2⟩ := written_StreamEvents_extends C (some ⟨topics⟩) s (l1 ++ [r1]) l2
  have e1 : (l1 ++ r1 :: l2 ++ [r2]) ++ l3 = l1 ++ r1 :: l2 ++ r2 :: l3 := by simp
  have e2 : (l1 ++ [r1]) ++ l2 = l1 ++ r1 :: l2 := by simp
  rw [e1] at hw3
  rw [e2] at hw2
  exact ⟨w2, w3, by rw [hw3, h2, hw2, h1]⟩

/-- Witness of C8: request head; two head events taken one after the other are
written in that order. -/
theorem C8_order_preserved_witness :
    written (StreamEvents demo (some ⟨["head"]⟩) (0 : Nat)
      ([.stateChan (some ⟨7, some (.eventHead ((10, [0xAA]) : Nat × List Nat))⟩)] ++
        [.stateChan (some ⟨7, some (.eventHead ((11, [0xAB]) : Nat × List Nat))⟩)])).effects =
    written (StreamEvents demo (some ⟨["head"]⟩) (0 : Nat)
      [.stateChan (some ⟨7, some (.eventHead ((10, [0xAA]) : Nat × List Nat))⟩)]).effects ++
    written (StreamEvents.loop demo (topicSet ["head"])
      (StreamEvents demo (some ⟨["head"]⟩) (0 : Nat)
        [.stateChan (some ⟨7, some (.eventHead ((10, [0xAA]) : Nat × List Nat))⟩)]).stream
      [.stateChan (some ⟨7, some (.eventHead ((11, [0xAB]) : Nat × List Nat))⟩)]).effects :=
  (C8_order_preserved demo ["head"] (0 : Nat)).1
    [.stateChan (some ⟨7, some (.eventHead ((10, [0xAA]) : Nat × List Nat))⟩)]
    [.stateChan (some ⟨7, some (.eventHead ((11, [0xAB]) : Nat × List Nat))⟩)] rfl

theorem StreamEvents_invalid_topic (C : Collab) (l : List String) (s : C.Stream)
    (ready : List (Ready C.toSchema)) (h : ∃ t ∈ l, casesHandled.has t = false) :
    ∃ t ∈ l, casesHandled.has t = false ∧
      StreamEvents C (some ⟨l⟩) s ready =
        ⟨.returned (.statusS .InvalidArgument "topic %s not allowed for event subscriptions" t),
          s, [], ready⟩ := by
  obtain ⟨t, ht, hf, heq⟩ := topicsLoop_error C.Err l TopicMap.empty h
  have hlen : l.length ≠ 0 := by
    intro hl
    rw [List.length_eq_zero.mp hl] at ht
    cases ht
  exact ⟨t, ht, hf, by simp [StreamEvents, hlen, heq]⟩

/-- C10 as stated fails: the lists foo, bar and bar, foo contain the same names,
but the InvalidArgument status that `StreamEvents` returns names the first
refused topic of the list, foo for one and bar for the other. -/
theorem C10_counterexample :
    (∀ t, t ∈ ["foo", "bar"] ↔ t ∈ ["bar", "foo"]) ∧
    (StreamEvents demo (some ⟨["foo", "bar"]⟩) (0 : Nat) []).result =
      .returned (.statusS .InvalidArgument "topic %s not allowed for event subscriptions" "foo") ∧
    (StreamEvents demo (some ⟨["bar", "foo"]⟩) (0 : Nat) []).result =
      .returned (.statusS .InvalidArgument "topic %s not allowed for event subscriptions" "bar") ∧
    StreamEvents demo (some ⟨["foo", "bar"]⟩) (0 : Nat) [] ≠
      StreamEvents demo (some ⟨["bar", "foo"]⟩) (0 : Nat) [] := by
  refine ⟨?_, rfl, rfl, ?_⟩
  · intro t
    simp only [List.mem_cons, List.mem_singleton, List.not_mem_nil, or_false]
    exact Or.comm
  · intro h
    have h2 := congrArg CallOutcome.result h
    have h3 : (CallResult.returned (GoError.statusS Code.InvalidArgument
        "topic %s not allowed for event subscriptions" "foo") : CallResult demo.Err) =
        CallResult.returned (GoError.statusS Code.InvalidArgument
          "topic %s not allowed for event subscriptions" "bar") := h2
    simp only [CallResult.returned.injEq, GoError.statusS.injEq] at h3
    exact absurd h3.2.2 (by decide)

theorem topicsLoop_first_refused (E : Type) :
    ∀ (before : List String) (t : String) (after : List String) (m : TopicMap),
      (∀ u ∈ before, casesHandled.has u = true) → casesHandled.has t = false →
      StreamEvents.topicsLoop E (before ++ t :: after) m =
        .error (.statusS .InvalidArgument "topic %s not allowed for event subscriptions" t) := by
  intro before
  induction before with
  | nil =>
    intro t after m _ hf
    simp [StreamEvents.topicsLoop, hf]
  | cons a before ih =>
    intro t after m hall hf
    have ha : casesHandled.has a = true := hall a (List.mem_cons_self a before)
    have hrest : ∀ u ∈ before, casesHandled.has u = true :=
      fun u hu => hall u (List.mem_cons_of_mem a hu)
    simp only [List.cons_append, StreamEvents.topicsLoop, ha, Bool.not_true, Bool.false_eq_true,
      if_false]
    exact ih t after (m.set a true) hrest hf

theorem first_refused_split :
    ∀ (l : List String), (∃ t ∈ l, casesHandled.has t = false) →
      ∃ before t after, l = before ++ t :: after ∧
        (∀ u ∈ before, casesHandled.has u = true) ∧ casesHandled.has t = false := by
  intro l
  induction l with
  | nil => intro h; obtain ⟨t, ht, _⟩ := h; cases ht
  | cons a l ih =>
    intro h
    by_cases ha : casesHandled.has a = true
    · obtain ⟨t, ht, hf⟩ := h
      have htl : t ∈ l := by
        rcases List.mem_cons.mp ht with rfl | h2
        · rw [ha] at hf; cases hf
        · exact h2
      obtain ⟨before, u, after, hl, hb, hu⟩ := ih ⟨t, htl, hf⟩
      refine ⟨a :: before, u, after, by rw [hl]; rfl, ?_, hu⟩
      intro v hv
      rcases List.mem_cons.mp hv with rfl | hv2
      · exact ha
      · exact hb v hv2
    · have ha2 : casesHandled.has a = false := by simpa using ha
      exact ⟨[], a, l, rfl, fun u hu => absurd hu (List.not_mem_nil u), ha2⟩

theorem StreamEvents_first_refused (C : Collab) (before : List String) (t : String)
    (after : List String) (s : C.Stream) (ready : List (Ready C.toSchema))
    (hall : ∀ u ∈ before, casesHandled.has u = true) (hf : casesHandled.has t = false) :
    StreamEvents C (some ⟨before ++ t :: after⟩) s ready =
      ⟨.returned (.statusS .InvalidArgument "topic %s not allowed for event subscriptions" t),
        s, [], ready⟩ := by
  have hlen : (before ++ t :: after).length ≠ 0 := by simp
  have heq := topicsLoop_first_refused C.Err before t after TopicMap.empty hall hf
  simp only [StreamEvents, hlen, if_false, heq]

/-- C10, amended: two topic lists that contain the same names (in any order, with
any repetitions) give the same outcome in everything (result, stream, effects,
unconsumed items, for every list of ready items) when all their names are
registry topics; when some name is not, both calls end with an InvalidArgument
status of the same format and without any effect, each naming the first refused
topic of its own list: the list splits as registry topics, then the named topic,
which is not a registry topic, then the rest. -/
theorem C10_same_names (C : Collab) (l1 l2 : List String) (s : C.Stream)
    (ready : List (Ready C.toSchema)) (h : ∀ t, t ∈ l1 ↔ t ∈ l2) :
    ((∀ t ∈ l1, t ∈ ["head", "block", "attestation", "voluntary_exit", "finalized_checkpoint",
        "chain_reorg"]) →
      StreamEvents C (some ⟨l1⟩) s ready = StreamEvents C (some ⟨l2⟩) s ready) ∧
    ((∃ t ∈ l1, t ∉ ["head", "block", "attestation", "voluntary_exit", "finalized_checkpoint",
        "chain_reorg"]) →
      ∃ before1 t1 after1 before2 t2 after2,
        l1 = before1 ++ t1 :: after1 ∧
        (∀ u ∈ before1, u ∈ ["head", "block", "attestation", "voluntary_exit",
          "finalized_checkpoint", "chain_reorg"]) ∧
        t1 ∉ ["head", "block", "attestation", "voluntary_exit", "finalized_checkpoint",
          "chain_reorg"] ∧
        l2 = before2 ++ t2 :: after2 ∧
        (∀ u ∈ before2, u ∈ ["head", "block", "attestation", "voluntary_exit",
          "finalized_checkpoint", "chain_reorg"]) ∧
        t2 ∉ ["head", "block", "attestation", "voluntary_exit", "finalized_checkpoint",
          "chain_reorg"] ∧
        StreamEvents C (some ⟨l1⟩) s ready =
          ⟨.returned (.statusS .InvalidArgument "topic %s not allowed for event subscriptions" t1),
            s, [], ready⟩ ∧
        StreamEvents C (some ⟨l2⟩) s ready =
          ⟨.returned (.statusS .InvalidArgument "topic %s not allowed for event subscriptions" t2),
            s, [], ready⟩) := by
  constructor
  · intro hall
    by_cases hne : l1 = []
    · have hne2 : l2 = [] := by
        cases l2 with
        | nil => rfl
        | cons a l =>
          have ha : a ∈ l1 := (h a).mpr (List.mem_cons_self a l)
          rw [hne] at ha
          cases ha
      rw [hne, hne2]
    · have hne2 : l2 ≠ [] := by
        intro h2
        cases l1 with
        | nil => exact hne rfl
        | cons a l =>
          have ha : a ∈ l2 := (h a).mp (List.mem_cons_self a l)
          rw [h2] at ha
          cases ha
      have hall1 : ∀ t ∈ l1, casesHandled.has t = true :=
        fun t ht => (casesHandled_has t).mpr (hall t ht)
      have hall2 : ∀ t ∈ l2, casesHandled.has t = true :=
        fun t ht => (casesHandled_has t).mpr (hall t ((h t).mpr ht))
      have hset : topicSet l1 = topicSet l2 := by
        funext x
        simp only [topicSet, h x]
      rw [StreamEvents_valid C l1 s ready hne hall1, StreamEvents_valid C l2 s ready hne2 hall2,
        hset]
  · rintro ⟨t, ht, hf⟩
    obtain ⟨before1, t1, after1, hl1, hb1, hf1⟩ := first_refused_split l1
      ⟨t, ht, (casesHandled_has_false t).mpr hf⟩
    obtain ⟨before2, t2, after2, hl2, hb2, hf2⟩ := first_refused_split l2
      ⟨t, (h t).mp ht, (casesHandled_has_false t).mpr hf⟩
    refine ⟨before1, t1, after1, before2, t2, after2, hl1,
      fun u hu => (casesHandled_has u).mp (hb1 u hu), (casesHandled_has_false t1).mp hf1, hl2,
      fun u hu => (casesHandled_has u).mp (hb2 u hu), (casesHandled_has_false t2).mp hf2, ?_, ?_⟩
    · rw [hl1]; exact StreamEvents_first_refused C before1 t1 after1 s ready hb1 hf1
    · rw [hl2]; exact StreamEvents_first_refused C before2 t2 after2 s ready hb2 hf2

/-- Witness of C10 amended: the lists head, block, head and block, head give
the same outcome on a head event followed by the caller cancelling. -/
theorem C10_same_names_witness :
    StreamEvents demo (some ⟨["head", "block", "head"]⟩) (0 : Nat)
        [.stateChan (some ⟨7, some (.eventHead ((10, [0xAA]) : Nat × List Nat))⟩),
          .streamCtxDone] =
      StreamEvents demo (some ⟨["block", "head"]⟩) (0 : Nat)
        [.stateChan (some ⟨7, some (.eventHead ((10, [0xAA]) : Nat × List Nat))⟩),
          .streamCtxDone] :=
  (C10_same_names demo ["head", "block", "head"] ["block", "head"] (0 : Nat)
    [.stateChan (some ⟨7, some (.eventHead ((10, [0xAA]) : Nat × List Nat))⟩), .streamCtxDone]
    (by intro t; simp only [List.mem_cons, List.mem_singleton, List.not_mem_nil, or_false]; tauto)).1
    (by simp)

end Eventsv1
